import Mathlib

/-!
Verification of the teia-smart-contracts collection marketplace system
(python/contracts/fa2.py, marketplace.py, daoGovernance.py) against its
natural-language specification.

The contracts are shallowly embedded: big maps become functions into
`Option`, mutez and nat become `Nat`, timestamps become `Int` (seconds),
addresses become an opaque `Nat` alias, and every entry point becomes a
function returning `Except String` mirroring the SmartPy `sp.verify` /
big-map-access failure semantics.  Emitted tez/token transfers are
returned as effect lists.
-/

/-- Opaque caller identity: equality-comparable, used as map key. -/
abbrev Addr : Type := Nat

/-- Point update of a big map modelled as a function into `Option`. -/
def mapUpd [DecidableEq κ] (m : κ → Option α) (k : κ) (v : α) : κ → Option α :=
  fun x => if x = k then some v else m x

/-- Point update of a unit-valued big map modelled as a `Bool`-valued function. -/
def setUpd [DecidableEq κ] (m : κ → Bool) (k : κ) (v : Bool) : κ → Bool :=
  fun x => if x = k then v else m x

/-- Returns `true` exactly when the transaction aborted. -/
def isError : Except ε α → Bool
  | .error _ => true
  | .ok _ => false

namespace FA2

/-- Royalties attached to one user: address plus per-mille share
(USER_ROYALTIES_TYPE in fa2.py). -/
structure UserRoyalties where
  address : Addr
  royalties : Nat
deriving DecidableEq

/-- Royalties of a token/collection: original minter plus creator
(TOKEN_ROYALTIES_VALUE_TYPE in fa2.py). -/
structure TokenRoyalties where
  minter : UserRoyalties
  creator : UserRoyalties
deriving DecidableEq

/-- Storage of the extended FA2 contract (fa2.py `init_type`), with the
static metadata fields (contract metadata, token name byte table) omitted
because no entry point logic reads them besides the metadata views. -/
structure State where
  administrator : Addr
  ledger : Nat → Option Addr
  collection_ledger : Nat → Option Addr
  token_collection : Nat → Option Nat
  collection_base_url : Nat → Option (List Nat)
  collection_start_id : Nat → Option Nat
  collection_not_fresh : Nat → Bool
  collection_royalties : Nat → Option TokenRoyalties
  collection_operators : Addr × Addr × Nat → Bool
  operators : Addr × Addr × Nat → Bool
  proposed_administrator : Option Addr
  counter : Nat
  collection_counter : Nat

/-- The freshly deployed contract: every big map empty, counters zero. -/
def initial (administrator : Addr) : State where
  administrator := administrator
  ledger := fun _ => none
  collection_ledger := fun _ => none
  token_collection := fun _ => none
  collection_base_url := fun _ => none
  collection_start_id := fun _ => none
  collection_not_fresh := fun _ => false
  collection_royalties := fun _ => none
  collection_operators := fun _ => false
  operators := fun _ => false
  proposed_administrator := none
  counter := 0
  collection_counter := 0

/-- Parameters of `mint_collection`. -/
structure MintParams where
  total : Nat
  base : List Nat
  royalties : TokenRoyalties

/-- The `while` loop of `mint_collection`: registers `n` sequential token
ids into the new collection, advancing the token counter. -/
def mintLoop (s : State) (collection_id : Nat) : Nat → State
  | 0 => s
  | n + 1 =>
      mintLoop
        { s with
          token_collection := mapUpd s.token_collection s.counter collection_id
          counter := s.counter + 1 }
        collection_id n

/-- Entry point `mint_collection` of fa2.py: admin-only batch mint of at
most 256 tokens sharing one base locator and one royalty split. -/
def mint_collection (s : State) (sender : Addr) (p : MintParams) : Except String State :=
  if sender ≠ s.administrator then .error "FA2_NOT_ADMIN"
  else if 256 < p.total then .error "FA2_TOTAL_TOO_HIGH"
  else if 1000 < p.royalties.minter.royalties + p.royalties.creator.royalties then
    .error "FA2_INVALID_ROYALTIES"
  else
    let cid := s.collection_counter
    let s1 : State :=
      { s with
        collection_base_url := mapUpd s.collection_base_url cid p.base
        collection_start_id := mapUpd s.collection_start_id cid s.counter
        collection_royalties := mapUpd s.collection_royalties cid p.royalties
        collection_ledger := mapUpd s.collection_ledger cid p.royalties.minter.address }
    let s2 := mintLoop s1 cid p.total
    .ok { s2 with collection_counter := s2.collection_counter + 1 }

/-- One element of a transfer batch's inner `txs` list. -/
structure TxItem where
  to_ : Addr
  token_id : Nat
  amount : Nat

/-- One element of the outer `transfer` parameter list. -/
structure TransferItem where
  from_ : Addr
  txs : List TxItem

/-- Processing of a single `tx` inside the `transfer` loops of fa2.py:
amount/existence checks, owner resolution (per-token ledger first,
collection ledger fallback), operator check, then the ledger write and the
unconditional not-fresh marking keyed by `token_collection[token_id]`. -/
def applyTx (sender from_ : Addr) (s : State) (tx : TxItem) : Except String State :=
  if 2 ≤ tx.amount then .error "FA2_INSUFFICIENT_BALANCE"
  else if tx.amount = 0 then .error "FA2_TRANSACTION_ZERO"
  else if s.counter ≤ tx.token_id then .error "FA2_TOKEN_UNDEFINED"
  else
    let ownerCheck : Except String Unit :=
      match s.ledger tx.token_id with
      | some owner =>
          if owner = from_ then .ok () else .error "FA2_INSUFFICIENT_BALANCE"
      | none =>
          match s.token_collection tx.token_id with
          | none => .error "FA2_GET_KEY_NOT_FOUND"
          | some cid =>
              match s.collection_ledger cid with
              | none => .error "FA2_GET_KEY_NOT_FOUND"
              | some owner =>
                  if owner = from_ then .ok () else .error "FA2_INSUFFICIENT_BALANCE"
    match ownerCheck with
    | .error e => .error e
    | .ok _ =>
        if sender = from_ ∨ s.operators (from_, sender, tx.token_id) = true then
          match s.token_collection tx.token_id with
          | none => .error "FA2_GET_KEY_NOT_FOUND"
          | some cid =>
              .ok { s with
                    ledger := mapUpd s.ledger tx.token_id tx.to_
                    collection_not_fresh := setUpd s.collection_not_fresh cid true }
        else .error "FA2_NOT_OPERATOR"

/-- Entry point `transfer` of fa2.py: a batch of individual transfers,
processed in order, any failure aborting the whole batch. -/
def transfer (s : State) (sender : Addr) (items : List TransferItem) : Except String State :=
  items.foldlM (fun st item => item.txs.foldlM (applyTx sender item.from_) st) s

/-- Entry point `transfer_collection` of fa2.py: O(1) whole-collection
transfer, allowed only while the collection is still fresh. -/
def transfer_collection (s : State) (sender from_ to_ : Addr) (collection_id : Nat) :
    Except String State :=
  if s.collection_counter ≤ collection_id then .error "COLLECTION_UNDEFINED"
  else if s.collection_not_fresh collection_id then
    .error "COLLECTION_NOT_FRESH_PLEASE_TRANSFER_SINGLE_TOKENS"
  else
    match s.collection_ledger collection_id with
    | none => .error "FA2_GET_KEY_NOT_FOUND"
    | some owner =>
        if owner ≠ from_ then .error "COLLECTION_NOT_OWNER"
        else if sender = from_ ∨ s.collection_operators (from_, sender, collection_id) = true then
          .ok { s with collection_ledger := mapUpd s.collection_ledger collection_id to_ }
        else .error "COLLECTION_NOT_OPERATOR"

/-- On-chain view `get_balance` of fa2.py: 1 for the resolved owner, 0 for
anyone else, failing only when the token id itself does not exist. -/
def get_balance (s : State) (owner : Addr) (token_id : Nat) : Except String Nat :=
  if s.counter ≤ token_id then .error "FA2_TOKEN_UNDEFINED"
  else
    match s.ledger token_id with
    | some a => .ok (if a = owner then 1 else 0)
    | none =>
        match s.token_collection token_id with
        | none => .error "FA2_GET_KEY_NOT_FOUND"
        | some cid =>
            match s.collection_ledger cid with
            | none => .error "FA2_GET_KEY_NOT_FOUND"
            | some a => .ok (if a = owner then 1 else 0)

/-- One element of the `update_operators` parameter list. -/
inductive OperatorUpdate where
  | add_operator (owner operator : Addr) (token_id : Nat)
  | remove_operator (owner operator : Addr) (token_id : Nat)

/-- Processing of one operator update inside `update_operators`. -/
def applyOperatorUpdate (sender : Addr) (s : State) (u : OperatorUpdate) :
    Except String State :=
  match u with
  | .add_operator owner operator token_id =>
      if s.counter ≤ token_id then .error "FA2_TOKEN_UNDEFINED"
      else if sender ≠ owner then .error "FA2_SENDER_IS_NOT_OWNER"
      else .ok { s with operators := setUpd s.operators (owner, operator, token_id) true }
  | .remove_operator owner operator token_id =>
      if s.counter ≤ token_id then .error "FA2_TOKEN_UNDEFINED"
      else if sender ≠ owner then .error "FA2_SENDER_IS_NOT_OWNER"
      else .ok { s with operators := setUpd s.operators (owner, operator, token_id) false }

/-- Entry point `update_operators` of fa2.py. -/
def update_operators (s : State) (sender : Addr) (us : List OperatorUpdate) :
    Except String State :=
  us.foldlM (applyOperatorUpdate sender) s

/-- One element of the `update_collection_operators` parameter list. -/
inductive CollectionOperatorUpdate where
  | add_operator (owner operator : Addr) (collection_id : Nat)
  | remove_operator (owner operator : Addr) (collection_id : Nat)

/-- Processing of one collection operator update. -/
def applyCollectionOperatorUpdate (sender : Addr) (s : State)
    (u : CollectionOperatorUpdate) : Except String State :=
  match u with
  | .add_operator owner operator collection_id =>
      if s.collection_counter ≤ collection_id then .error "COLLECTION_UNDEFINED"
      else if sender ≠ owner then .error "FA2_SENDER_IS_NOT_OWNER"
      else .ok { s with collection_operators :=
                    setUpd s.collection_operators (owner, operator, collection_id) true }
  | .remove_operator owner operator collection_id =>
      if s.collection_counter ≤ collection_id then .error "COLLECTION_UNDEFINED"
      else if sender ≠ owner then .error "FA2_SENDER_IS_NOT_OWNER"
      else .ok { s with collection_operators :=
                    setUpd s.collection_operators (owner, operator, collection_id) false }

/-- Entry point `update_collection_operators` of fa2.py. -/
def update_collection_operators (s : State) (sender : Addr)
    (us : List CollectionOperatorUpdate) : Except String State :=
  us.foldlM (applyCollectionOperatorUpdate sender) s

/-- Entry point `transfer_administrator` of fa2.py. -/
def transfer_administrator (s : State) (sender proposed : Addr) : Except String State :=
  if sender ≠ s.administrator then .error "FA2_NOT_ADMIN"
  else .ok { s with proposed_administrator := some proposed }

/-- Entry point `accept_administrator` of fa2.py. -/
def accept_administrator (s : State) (sender : Addr) : Except String State :=
  match s.proposed_administrator with
  | none => .error "FA2_NO_NEW_ADMIN"
  | some proposed =>
      if sender ≠ proposed then .error "FA2_NOT_PROPOSED_ADMIN"
      else .ok { s with administrator := sender, proposed_administrator := none }

/-- One successful FA2 entry-point invocation (ignoring the inert metadata
entry point, which cannot touch the ledger data). -/
inductive Step : State → State → Prop where
  | mint (sender : Addr) (p : MintParams) (h : mint_collection s sender p = .ok s') :
      Step s s'
  | transfer (sender : Addr) (items : List TransferItem)
      (h : transfer s sender items = .ok s') : Step s s'
  | transfer_collection (sender from_ to_ : Addr) (collection_id : Nat)
      (h : transfer_collection s sender from_ to_ collection_id = .ok s') : Step s s'
  | update_operators (sender : Addr) (us : List OperatorUpdate)
      (h : update_operators s sender us = .ok s') : Step s s'
  | update_collection_operators (sender : Addr) (us : List CollectionOperatorUpdate)
      (h : update_collection_operators s sender us = .ok s') : Step s s'
  | transfer_administrator (sender proposed : Addr)
      (h : transfer_administrator s sender proposed = .ok s') : Step s s'
  | accept_administrator (sender : Addr) (h : accept_administrator s sender = .ok s') :
      Step s s'

/-- States reachable from a freshly deployed contract through successful
entry-point invocations. -/
inductive Reachable : State → Prop where
  | init (a : Addr) : Reachable (initial a)
  | step (hr : Reachable s) (hs : Step s s') : Reachable s'

/-- The owner of a token as resolved by fa2.py everywhere: the per-token
ledger entry when present, otherwise the owner recorded in the collection
ledger for the token's collection. -/
def resolvedOwner (s : State) (token_id : Nat) : Option Addr :=
  match s.ledger token_id with
  | some a => some a
  | none =>
      match s.token_collection token_id with
      | some cid => s.collection_ledger cid
      | none => none

end FA2

namespace Marketplace

/-- A single-token swap record (SWAP_TYPE in marketplace.py); `price` is in
mutez.  A record with `editions = 0` is a tombstone, never deleted. -/
structure Swap where
  issuer : Addr
  token_id : Nat
  editions : Nat
  price : Nat
deriving DecidableEq

/-- One band of a collection swap price list: `quantity` consecutive tokens
sold at `price` mutez each. -/
structure PriceEntry where
  quantity : Nat
  price : Nat
deriving DecidableEq

/-- A whole-collection swap record (COLLECTION_SWAP_TYPE in marketplace.py). -/
structure CollectionSwap where
  issuer : Addr
  collection_id : Nat
  first : Nat
  last : Nat
  price_list : List PriceEntry
deriving DecidableEq

/-- Storage of the marketplace contract (marketplace.py `init_type`),
minus the static metadata big map. -/
structure MPState where
  administrator : Addr
  fee : Nat
  fee_recipient : Addr
  swaps : Nat → Option Swap
  counter : Nat
  collection_swaps : Nat → Option CollectionSwap
  collection_swaps_counter : Nat
  highest_token_swapped : Nat
  proposed_administrator : Option Addr
  swaps_paused : Bool
  collects_paused : Bool

/-- The marketplace together with the FA2 contract it points at; `mpAddr`
is the marketplace's own contract address (`sp.self_address`). -/
structure Sys where
  fa2 : FA2.State
  mp : MPState
  mpAddr : Addr

/-- SmartPy `sp.split_tokens(amount, share, total)`: integer (floor)
per-mille arithmetic. -/
def split_tokens (amount share total : Nat) : Nat :=
  amount * share / total

/-- On-chain view `token_royalties` of fa2.py: reads the token's collection
id and then that collection's royalties, failing on a missing key. -/
def token_royalties (s : FA2.State) (token_id : Nat) : Except String FA2.TokenRoyalties :=
  match s.token_collection token_id with
  | none => .error "FA2_GET_KEY_NOT_FOUND"
  | some cid =>
      match s.collection_royalties cid with
      | none => .error "FA2_GET_KEY_NOT_FOUND"
      | some r => .ok r

/-- Modelled from the spec: the marketplace calls an FA2 on-chain view named
`collection_royalties` returning the minter/creator royalty record of a
collection; fa2.py stores that record in its `collection_royalties` big map
but declares no on-chain view of that name, so the view is modelled as the
direct storage read the marketplace expects (the per-collection analogue of
the `token_royalties` view). -/
def collection_royalties (s : FA2.State) (collection_id : Nat) :
    Except String FA2.TokenRoyalties :=
  match s.collection_royalties collection_id with
  | none => .error "FA2_GET_KEY_NOT_FOUND"
  | some r => .ok r

/-- On-chain view `collection_first_last_tokens` of fa2.py: first and last
token ids of a collection. -/
def collection_first_last_tokens (s : FA2.State) (collection_id : Nat) :
    Except String (Nat × Nat) :=
  if s.collection_counter ≤ collection_id then .error "COLLECTION_UNDEFINED"
  else
    match s.collection_start_id collection_id with
    | none => .error "FA2_GET_KEY_NOT_FOUND"
    | some first =>
        if collection_id = s.collection_counter - 1 then
          if s.counter = 0 then .error "FA2_AS_NAT_NEGATIVE"
          else .ok (first, s.counter - 1)
        else
          match s.collection_start_id (collection_id + 1) with
          | none => .error "FA2_GET_KEY_NOT_FOUND"
          | some nxt =>
              if nxt = 0 then .error "FA2_AS_NAT_NEGATIVE"
              else .ok (first, nxt - 1)

/-- On-chain view `get_token_collection_id` of fa2.py: bare big-map read. -/
def get_token_collection_id (s : FA2.State) (token_id : Nat) : Except String Nat :=
  match s.token_collection token_id with
  | none => .error "FA2_GET_KEY_NOT_FOUND"
  | some cid => .ok cid

/-- The `sp.for_` loop of `calculate_token_price_in_collection_swap`:
walks the price list accumulating quantities, latching the price of the
first band whose cumulative quantity strictly exceeds the 0-based token
offset `k`. -/
def price_walk (k : Nat) : List PriceEntry → Nat → Nat → Bool → Nat
  | [], _, price, _ => price
  | e :: rest, cum, price, reached =>
      let cum2 := cum + e.quantity
      if k < cum2 ∧ reached = false then price_walk k rest cum2 e.price true
      else price_walk k rest cum2 price reached

/-- Helper `calculate_token_price_in_collection_swap` of marketplace.py:
`sp.as_nat(token_id - first)` fails for tokens before the collection start,
then the band walk resolves the price (0 when no band is ever reached). -/
def calculate_token_price_in_collection_swap (token_id : Nat) (sw : CollectionSwap) :
    Except String Nat :=
  if token_id < sw.first then .error "FA2_AS_NAT_NEGATIVE"
  else .ok (price_walk (token_id - sw.first) sw.price_list 0 0 false)

/-- The settlement block shared verbatim by `collect` and
`try_collect_inside_collection` (marketplace.py lines 333-369 and 417-453):
per-mille cuts for minter, creator and marketplace fee, each sent only when
nonzero, then the exact remainder to the swap issuer.  The chained mutez
subtraction fails when the cuts exceed the payment. -/
def settle (amount : Nat) (r : FA2.TokenRoyalties) (fee : Nat)
    (fee_recipient issuer : Addr) : Except String (List (Addr × Nat)) :=
  let minter_royalties_amount := split_tokens amount r.minter.royalties 1000
  let creator_royalties_amount := split_tokens amount r.creator.royalties 1000
  let fee_amount := split_tokens amount fee 1000
  if amount < minter_royalties_amount + creator_royalties_amount + fee_amount then
    .error "MUTEZ_SUB_UNDERFLOW"
  else
    .ok ((if 0 < minter_royalties_amount then [(r.minter.address, minter_royalties_amount)] else []) ++
         (if 0 < creator_royalties_amount then [(r.creator.address, creator_royalties_amount)] else []) ++
         (if 0 < fee_amount then [(fee_recipient, fee_amount)] else []) ++
         [(issuer, amount - minter_royalties_amount - creator_royalties_amount - fee_amount)])

/-- Entry point `swap` of marketplace.py: custody transfer of one edition
to the marketplace (via the FA2 `transfer` entry point, whose sender is the
marketplace contract) followed by the swap record write. -/
def swap (sys : Sys) (sender : Addr) (amount token_id price : Nat) : Except String Sys :=
  if sys.mp.swaps_paused then .error "MP_SWAPS_PAUSED"
  else if amount ≠ 0 then .error "MP_TEZ_TRANSFER"
  else
    match token_royalties sys.fa2 token_id with
    | .error e => .error e
    | .ok royalties =>
        if 1000 < sys.mp.fee + royalties.minter.royalties + royalties.creator.royalties then
          .error "MP_TOO_HIGH_ROYALTIES"
        else
          match FA2.transfer sys.fa2 sys.mpAddr
              [⟨sender, [⟨sys.mpAddr, token_id, 1⟩]⟩] with
          | .error e => .error e
          | .ok fa2' =>
              .ok { sys with
                    fa2 := fa2'
                    mp := { sys.mp with
                            swaps := mapUpd sys.mp.swaps token_id
                              ⟨sender, token_id, 1, price⟩
                            counter := sys.mp.counter + 1
                            highest_token_swapped :=
                              if sys.mp.highest_token_swapped < token_id then token_id
                              else sys.mp.highest_token_swapped } }

/-- Entry point `swap_collection` of marketplace.py: checks that the price
list quantities sum exactly to the collection's token count, then takes
custody of the whole collection (O(1) collection transfer) and records the
collection swap. -/
def swap_collection (sys : Sys) (sender : Addr) (amount collection_id : Nat)
    (price_list : List PriceEntry) : Except String Sys :=
  if sys.mp.swaps_paused then .error "MP_SWAPS_PAUSED"
  else if amount ≠ 0 then .error "MP_TEZ_TRANSFER"
  else
    match collection_royalties sys.fa2 collection_id with
    | .error e => .error e
    | .ok royalties =>
        if 1000 < sys.mp.fee + royalties.minter.royalties + royalties.creator.royalties then
          .error "MP_TOO_HIGH_ROYALTIES"
        else
          match collection_first_last_tokens sys.fa2 collection_id with
          | .error e => .error e
          | .ok (first, last) =>
              if last + 1 < first then .error "FA2_AS_NAT_NEGATIVE"
              else
                let token_quantity := last + 1 - first
                let token_priced_quantity :=
                  price_list.foldl (fun acc e => acc + e.quantity) 0
                if token_priced_quantity ≠ token_quantity then
                  .error "MP_PRICELIST_NOT_SUMMING_TO_TOKEN_QUANTITY"
                else
                  match FA2.transfer_collection sys.fa2 sys.mpAddr sender sys.mpAddr
                      collection_id with
                  | .error e => .error e
                  | .ok fa2' =>
                      .ok { sys with
                            fa2 := fa2'
                            mp := { sys.mp with
                                    collection_swaps := mapUpd sys.mp.collection_swaps
                                      collection_id
                                      ⟨sender, collection_id, first, last, price_list⟩
                                    collection_swaps_counter :=
                                      sys.mp.collection_swaps_counter + 1
                                    highest_token_swapped :=
                                      if sys.mp.highest_token_swapped < last then last
                                      else sys.mp.highest_token_swapped } }

/-- The guarded settlement block of `collect` and
`try_collect_inside_collection` (the `with sp.if_(sp.amount != 0)` body):
no tez movements at all for a zero price, otherwise the royalties view
followed by the four-way settlement. -/
def settleBlock (sys : Sys) (amount token_id : Nat) (issuer : Addr) :
    Except String (List (Addr × Nat)) :=
  if amount = 0 then .ok []
  else
    match token_royalties sys.fa2 token_id with
    | .error e => .error e
    | .ok r => settle amount r sys.mp.fee sys.mp.fee_recipient issuer

/-- The `else` branch of `collect` (`try_collect_inside_collection` in
marketplace.py): resolves the token through its collection swap, settles
the payment at the band price, hands the token over, and writes the
zero-edition tombstone swap for the token. -/
def try_collect_inside_collection (sys : Sys) (sender : Addr) (amount token_id : Nat) :
    Except String (Sys × List (Addr × Nat)) :=
  match get_token_collection_id sys.fa2 token_id with
  | .error e => .error e
  | .ok collection_id =>
      match sys.mp.collection_swaps collection_id with
      | none => .error "MP_WRONG_SWAP_ID"
      | some sw =>
          if sender = sw.issuer then .error "MP_IS_SWAP_ISSUER"
          else
            match calculate_token_price_in_collection_swap token_id sw with
            | .error e => .error e
            | .ok price =>
                if amount ≠ price then .error "MP_WRONG_TEZ_AMOUNT"
                else
                  match settleBlock sys amount token_id sw.issuer with
                  | .error e => .error e
                  | .ok pays =>
                      match FA2.transfer sys.fa2 sys.mpAddr
                          [⟨sys.mpAddr, [⟨sender, token_id, 1⟩]⟩] with
                      | .error e => .error e
                      | .ok fa2' =>
                          .ok ({ sys with
                                 fa2 := fa2'
                                 mp := { sys.mp with
                                         swaps := mapUpd sys.mp.swaps token_id
                                           ⟨sender, token_id, 0, 0⟩ } }, pays)

/-- Entry point `collect` of marketplace.py: a single-token swap record
(even a zero-edition tombstone) takes precedence; otherwise the token is
resolved through its collection swap. -/
def collect (sys : Sys) (sender : Addr) (amount token_id : Nat) :
    Except String (Sys × List (Addr × Nat)) :=
  if sys.mp.collects_paused then .error "MP_COLLECTS_PAUSED"
  else
    match sys.mp.swaps token_id with
    | some sw =>
        if sender = sw.issuer then .error "MP_IS_SWAP_ISSUER"
        else if sw.editions = 0 then .error "MP_SWAP_COLLECTED"
        else if amount ≠ sw.price then .error "MP_WRONG_TEZ_AMOUNT"
        else
          match settleBlock sys amount token_id sw.issuer with
          | .error e => .error e
          | .ok pays =>
              match FA2.transfer sys.fa2 sys.mpAddr
                  [⟨sys.mpAddr, [⟨sender, token_id, 1⟩]⟩] with
              | .error e => .error e
              | .ok fa2' =>
                  .ok ({ sys with
                         fa2 := fa2'
                         mp := { sys.mp with
                                 swaps := mapUpd sys.mp.swaps token_id
                                   { sw with editions := sw.editions - 1 } } }, pays)
    | none => try_collect_inside_collection sys sender amount token_id

end Marketplace

namespace DAO

/-- Status of a DAO proposal (PROPOSAL_STATUS_TYPE in daoGovernance.py). -/
inductive ProposalStatus where
  | open_
  | approved
  | executed
  | rejected
deriving DecidableEq

/-- Kind of a DAO proposal (PROPOSAL_KIND_TYPE in daoGovernance.py). -/
inductive ProposalKind where
  | text
  | transfer_mutez
  | transfer_token
  | lambda_function
deriving DecidableEq

/-- One mutez transfer of a transfer-mutez proposal. -/
structure MutezTransfer where
  amount : Nat
  destination : Addr
deriving DecidableEq

/-- A token-transfer proposal payload (TOKEN_TRANSFERS_TYPE). -/
structure TokenTransfers where
  fa2 : Addr
  token_id : Nat
  distribution : List MutezTransfer
deriving DecidableEq

/-- Parameter slots of a proposal (PROPOSAL_PARAMETERS_TYPE); the stored
lambda is executable code opaque to this embedding, so only its presence is
kept. -/
structure ProposalParameters where
  mutez_transfers : Option (List MutezTransfer)
  token_transfers : Option TokenTransfers
  lambda_function : Option Unit
deriving DecidableEq

/-- A DAO proposal record (PROPOSAL_TYPE); timestamps are seconds. -/
structure Proposal where
  kind : ProposalKind
  title : List Nat
  description : List Nat
  parameters : ProposalParameters
  issuer : Addr
  timestamp : Int
  level : Nat
  escrow_amount : Nat
  status : ProposalStatus
deriving DecidableEq

/-- A per-class running vote tally (VOTES_SUMMARY_TYPE). -/
structure VotesSummary where
  positive : Nat
  negative : Nat
  abstain : Nat
  total : Nat
  participation : Nat
deriving DecidableEq

/-- A member's vote choice (VOTE_KIND_TYPE). -/
inductive VoteKind where
  | yes
  | no
  | abstain
deriving DecidableEq

/-- A recorded vote (VOTE_TYPE). -/
structure Vote where
  vote : VoteKind
  weight : Nat
deriving DecidableEq

/-- The DAO governance parameters (GOVERNANCE_PARAMETERS_TYPE); periods are
in days. -/
structure GovernanceParameters where
  voting_period : Nat
  escrow_amount : Nat
  escrow_return : Nat
  supermajority : Nat
  representatives_share : Nat
  quorum_update_period : Nat
  min_quorum : Nat
  max_quorum : Nat
deriving DecidableEq

/-- Storage of the DAO governance contract (daoGovernance.py `init_type`),
minus the static metadata big map. -/
structure Storage where
  treasury : Addr
  token : Addr
  representatives : Addr
  quorum : Nat
  last_quorum_update : Int
  governance_parameters : GovernanceParameters
  proposals : Nat → Option Proposal
  token_votes : Nat → Option VotesSummary
  representatives_votes : Nat → Option VotesSummary
  votes : Nat × Addr → Option Vote
  counter : Nat

/-- SmartPy `timestamp.add_days(d)`: one day is 86400 seconds. -/
def add_days (t : Int) (d : Nat) : Int :=
  t + (d : Int) * 86400

/-- A DAO-token escrow transfer emitted by `evaluate_voting_result`:
source, destination and amount of DAO tokens. -/
structure EscrowTransfer where
  from_self : Bool
  to_ : Addr
  amount : Nat
deriving DecidableEq

/-- Entry point `evaluate_voting_result` of daoGovernance.py.  The sender's
DAO-token balance (the `get_balance` on-chain view of the external token
contract) and the ambient `sp.now` are inputs supplied by the host.
Representative votes are scaled to `representatives_share%` of the current
quorum and apportioned by the representatives' internal ratio; the
apportioning divides by the representatives' vote total, which is Michelson
`EDIV`-plus-`open_some` and fails on a zero divisor. -/
def evaluate_voting_result (st : Storage) (sender_balance : Nat) (now : Int)
    (proposal_id : Nat) : Except String (Storage × List EscrowTransfer) :=
  if sender_balance = 0 then .error "DAO_NOT_MEMBER"
  else if st.counter ≤ proposal_id then .error "DAO_INEXISTENT_PROPOSAL"
  else
    match st.proposals proposal_id with
    | none => .error "DAO_GET_KEY_NOT_FOUND"
    | some proposal =>
        if proposal.status ≠ .open_ then .error "DAO_STATUS_NOT_OPEN"
        else if now ≤ add_days proposal.timestamp st.governance_parameters.voting_period then
          .error "DAO_OPEN_PROPOSAL"
        else
          match st.token_votes proposal_id with
          | none => .error "DAO_GET_KEY_NOT_FOUND"
          | some token_votes =>
              match st.representatives_votes proposal_id with
              | none => .error "DAO_GET_KEY_NOT_FOUND"
              | some representatives_votes =>
                  let representatives_total :=
                    st.quorum * st.governance_parameters.representatives_share / 100
                  if representatives_votes.total = 0 then .error "DAO_DIVISION_BY_ZERO"
                  else
                    let representatives_positive :=
                      representatives_total * representatives_votes.positive /
                        representatives_votes.total
                    let representatives_negative :=
                      representatives_total * representatives_votes.negative /
                        representatives_votes.total
                    let total := token_votes.total + representatives_total
                    let positive := token_votes.positive + representatives_positive
                    let negative := token_votes.negative + representatives_negative
                    let effects : List EscrowTransfer :=
                      if 0 < proposal.escrow_amount then
                        [⟨true,
                          if positive <
                              (positive + negative) *
                                st.governance_parameters.escrow_return / 100 then
                            st.treasury
                          else proposal.issuer,
                          proposal.escrow_amount⟩]
                      else []
                    let passed_supermajority :=
                      (positive + negative) * st.governance_parameters.supermajority / 100 ≤
                        positive
                    let passed_quorum := st.quorum ≤ total
                    let st1 : Storage :=
                      { st with
                        proposals := mapUpd st.proposals proposal_id
                          { proposal with
                            status :=
                              if passed_supermajority ∧ passed_quorum then .approved
                              else .rejected } }
                    let st2 : Storage :=
                      if add_days st.last_quorum_update
                          st.governance_parameters.quorum_update_period < now then
                        let nq0 := (st.quorum * 80 + total * 20) / 100
                        let nq1 :=
                          if nq0 < st.governance_parameters.min_quorum then
                            st.governance_parameters.min_quorum
                          else nq0
                        let nq2 :=
                          if st.governance_parameters.max_quorum < nq1 then
                            st.governance_parameters.max_quorum
                          else nq1
                        { st1 with quorum := nq2, last_quorum_update := now }
                      else st1
                    .ok (st2, effects)

end DAO

namespace FA2

/-- Many-step reachability between two FA2 states. -/
def ReachableFrom : State → State → Prop :=
  Relation.ReflTransGen Step

/-- A minted token whose ownership can be resolved without a missing-key
failure: its collection id is registered and that collection has an owner
in the collection ledger. -/
def TokenWellOwned (s : State) (token_id : Nat) : Prop :=
  ∃ cid, s.token_collection token_id = some cid ∧
    ∃ a, s.collection_ledger cid = some a

/-- The ledger invariant: every minted token is well owned. -/
def Inv (s : State) : Prop :=
  ∀ t, t < s.counter → TokenWellOwned s t

end FA2

namespace Marketplace

/-- Cumulative quantity of the first `n` bands of a price list. -/
def prefixQ (pl : List PriceEntry) (n : Nat) : Nat :=
  ((pl.take n).map PriceEntry.quantity).sum

/-- Total quantity covered by a price list. -/
def sumQ (pl : List PriceEntry) : Nat :=
  (pl.map PriceEntry.quantity).sum

end Marketplace

/-- Royalty configuration used by the concrete witness scenarios:
minter address 10 at 100 per mille, creator address 11 at 50 per mille. -/
def demoRoyalties : FA2.TokenRoyalties :=
  ⟨⟨10, 100⟩, ⟨11, 50⟩⟩

/-- An FA2 state with one 3-token collection (ids 0,1,2) whose collection
ledger entry is held by the marketplace address 99, as it is right after a
collection swap; token 0 also has marketplace custody recorded. -/
def demoFa2AfterCollectionSwap : FA2.State where
  administrator := 0
  ledger := fun _ => none
  collection_ledger := fun c => if c = 0 then some 99 else none
  token_collection := fun t => if t < 3 then some 0 else none
  collection_base_url := fun _ => none
  collection_start_id := fun c => if c = 0 then some 0 else none
  collection_not_fresh := fun _ => false
  collection_royalties := fun c => if c = 0 then some demoRoyalties else none
  collection_operators := fun _ => false
  operators := fun _ => false
  proposed_administrator := none
  counter := 3
  collection_counter := 1

/-- A marketplace+FA2 system holding an active collection swap over the
3-token collection (bands: one token at 1000000, two at 2000000, issuer 5)
in which token 0 has already been carved out, leaving its zero-edition
tombstone swap. -/
def demoSys : Marketplace.Sys where
  fa2 := demoFa2AfterCollectionSwap
  mp :=
    { administrator := 0
      fee := 25
      fee_recipient := 12
      swaps := fun t => if t = 0 then some ⟨7, 0, 0, 0⟩ else none
      counter := 0
      collection_swaps := fun c =>
        if c = 0 then some ⟨5, 0, 0, 2, [⟨1, 1000000⟩, ⟨2, 2000000⟩]⟩ else none
      collection_swaps_counter := 1
      highest_token_swapped := 2
      proposed_administrator := none
      swaps_paused := false
      collects_paused := false }
  mpAddr := 99

/-- A marketplace+FA2 system in which token 0 has an active single-token
swap (issuer 5, one edition at price 500) and the marketplace holds custody
of the token. -/
def demoSysActiveSwap : Marketplace.Sys where
  fa2 :=
    { administrator := 0
      ledger := fun t => if t = 0 then some 99 else none
      collection_ledger := fun c => if c = 0 then some 5 else none
      token_collection := fun t => if t = 0 then some 0 else none
      collection_base_url := fun _ => none
      collection_start_id := fun c => if c = 0 then some 0 else none
      collection_not_fresh := fun c => c = 0
      collection_royalties := fun c => if c = 0 then some demoRoyalties else none
      collection_operators := fun _ => false
      operators := fun _ => false
      proposed_administrator := none
      counter := 1
      collection_counter := 1 }
  mp :=
    { administrator := 0
      fee := 25
      fee_recipient := 12
      swaps := fun t => if t = 0 then some ⟨5, 0, 1, 500⟩ else none
      counter := 1
      collection_swaps := fun _ => none
      collection_swaps_counter := 0
      highest_token_swapped := 0
      proposed_administrator := none
      swaps_paused := false
      collects_paused := false }
  mpAddr := 99

/-- A marketplace+FA2 system holding a fresh, unswapped 3-token collection
owned by address 5, with the marketplace registered as collection operator,
ready for `swap_collection`. -/
def demoSysFresh : Marketplace.Sys where
  fa2 :=
    { administrator := 0
      ledger := fun _ => none
      collection_ledger := fun c => if c = 0 then some 5 else none
      token_collection := fun t => if t < 3 then some 0 else none
      collection_base_url := fun _ => none
      collection_start_id := fun c => if c = 0 then some 0 else none
      collection_not_fresh := fun _ => false
      collection_royalties := fun c => if c = 0 then some demoRoyalties else none
      collection_operators := fun k => k = (5, 99, 0)
      operators := fun _ => false
      proposed_administrator := none
      counter := 3
      collection_counter := 1 }
  mp :=
    { administrator := 0
      fee := 25
      fee_recipient := 12
      swaps := fun _ => none
      counter := 0
      collection_swaps := fun _ => none
      collection_swaps_counter := 0
      highest_token_swapped := 0
      proposed_administrator := none
      swaps_paused := false
      collects_paused := false }
  mpAddr := 99

/-- Mint parameters used by the reachable-state witnesses: a single-token
collection with the demo royalties. -/
def demoMintParams : FA2.MintParams :=
  ⟨1, [], demoRoyalties⟩

/-- The FA2 state obtained by minting `demoMintParams` on a freshly
deployed contract (administrator 0). -/
def demoFa2Minted : FA2.State :=
  match FA2.mint_collection (FA2.initial 0) 0 demoMintParams with
  | .ok s => s
  | .error _ => FA2.initial 0

/-- The FA2 state obtained from `demoFa2Minted` by the collection minter
(address 10) transferring token 0 to address 6. -/
def demoFa2Transferred : FA2.State :=
  match FA2.transfer demoFa2Minted 10 [⟨10, [⟨6, 0, 1⟩]⟩] with
  | .ok s => s
  | .error _ => demoFa2Minted

/-- Governance parameters used by the DAO witnesses (the compilation
target values of daoGovernance.py). -/
def demoGovParams : DAO.GovernanceParameters where
  voting_period := 5
  escrow_amount := 100
  escrow_return := 30
  supermajority := 70
  representatives_share := 30
  quorum_update_period := 10
  min_quorum := 1000
  max_quorum := 100000

/-- A DAO proposal open since timestamp 0 with no escrow. -/
def demoProposal : DAO.Proposal where
  kind := .text
  title := []
  description := []
  parameters := ⟨none, none, none⟩
  issuer := 3
  timestamp := 0
  level := 0
  escrow_amount := 0
  status := .open_

/-- DAO storage with one open proposal, token-holder tallies 7000 yes /
2000 no (total 9000) and one positive representative vote. -/
def demoDao : DAO.Storage where
  treasury := 1
  token := 2
  representatives := 4
  quorum := 8000
  last_quorum_update := 0
  governance_parameters := demoGovParams
  proposals := fun p => if p = 0 then some demoProposal else none
  token_votes := fun p => if p = 0 then some ⟨7000, 2000, 0, 9000, 3⟩ else none
  representatives_votes := fun p => if p = 0 then some ⟨1, 0, 0, 1, 1⟩ else none
  votes := fun _ => none
  counter := 1

/-- DAO storage identical to `demoDao` except that no representative has
voted on the proposal (representatives summary all zero). -/
def demoDaoZeroReps : DAO.Storage :=
  { demoDao with
    representatives_votes := fun p => if p = 0 then some ⟨0, 0, 0, 0, 0⟩ else none }

namespace DAO

/-- The representatives' scaled contribution stated by the spec:
`representatives_share%` of the current quorum, floored. -/
def scaled_representatives_total (st : Storage) : Nat :=
  st.quorum * st.governance_parameters.representatives_share / 100

/-- Combined positive votes stated by the spec: token-holder positives plus
the scaled representative contribution apportioned by the representatives'
internal positive ratio. -/
def combined_positive (st : Storage) (tv rv : VotesSummary) : Nat :=
  tv.positive + scaled_representatives_total st * rv.positive / rv.total

/-- Combined negative votes, apportioned like `combined_positive`. -/
def combined_negative (st : Storage) (tv rv : VotesSummary) : Nat :=
  tv.negative + scaled_representatives_total st * rv.negative / rv.total

/-- Combined total votes stated by the spec: token-holder total plus the
full scaled representative contribution. -/
def combined_total (st : Storage) (tv : VotesSummary) : Nat :=
  tv.total + scaled_representatives_total st

end DAO

/-- The system and payment list produced by collecting token 1 of the demo
collection swap for 2000000 mutez. -/
def c1CollectResult : Marketplace.Sys × List (Addr × Nat) :=
  match Marketplace.collect demoSys 6 2000000 1 with
  | .ok res => res
  | .error _ => (demoSys, [])

/-- Destructs a successful `Except` bind into the intermediate success. -/
theorem exists_of_bind_ok {e : Except ε α} {g : α → Except ε β} {b : β}
    (h : (e >>= g) = .ok b) : ∃ a, e = .ok a ∧ g a = .ok b := by
  cases e with
  | error err => simp [Bind.bind, Except.bind] at h
  | ok a => exact ⟨a, rfl, by simpa [Bind.bind, Except.bind] using h⟩

/-- The three per-mille cuts never exceed the payment when the shares sum
to at most 1000 per mille. -/
theorem cuts_le (P mr cr fee : Nat) (h : mr + cr + fee ≤ 1000) :
    P * mr / 1000 + P * cr / 1000 + P * fee / 1000 ≤ P := by
  have h1 : P * mr / 1000 * 1000 ≤ P * mr := Nat.div_mul_le_self _ _
  have h2 : P * cr / 1000 * 1000 ≤ P * cr := Nat.div_mul_le_self _ _
  have h3 : P * fee / 1000 * 1000 ≤ P * fee := Nat.div_mul_le_self _ _
  have h4 : P * mr + P * cr + P * fee ≤ P * 1000 := by
    calc P * mr + P * cr + P * fee = P * (mr + cr + fee) := by ring
    _ ≤ P * 1000 := Nat.mul_le_mul_left P h
  omega

/-- Every successful settlement pays out exactly the collected amount, with
the issuer receiving the exact remainder after the three floored cuts. -/
theorem settle_props (P : Nat) (r : FA2.TokenRoyalties) (fee : Nat) (fr iss : Addr)
    (h : r.minter.royalties + r.creator.royalties + fee ≤ 1000)
    (pays : List (Addr × Nat))
    (hok : Marketplace.settle P r fee fr iss = .ok pays) :
    (pays.map Prod.snd).sum = P ∧
    pays.getLast? = some (iss, P - (Marketplace.split_tokens P r.minter.royalties 1000 +
      Marketplace.split_tokens P r.creator.royalties 1000 +
      Marketplace.split_tokens P fee 1000)) := by
  have hle := cuts_le P r.minter.royalties r.creator.royalties fee h
  unfold Marketplace.settle at hok
  rw [if_neg (by unfold Marketplace.split_tokens; omega)] at hok
  simp only [Except.ok.injEq] at hok
  subst hok
  unfold Marketplace.split_tokens
  constructor
  · by_cases h1 : 0 < P * r.minter.royalties / 1000 <;>
      by_cases h2 : 0 < P * r.creator.royalties / 1000 <;>
      by_cases h3 : 0 < P * fee / 1000 <;>
      simp [h1, h2, h3] <;> omega
  · rw [List.getLast?_concat]
    have : P - P * r.minter.royalties / 1000 - P * r.creator.royalties / 1000 -
        P * fee / 1000 =
        P - (P * r.minter.royalties / 1000 + P * r.creator.royalties / 1000 +
          P * fee / 1000) := by omega
    rw [this]

/-- C1: for every collect that settles a swap (single-token or
collection) with a nonzero payment P under a royalty/fee configuration
summing to at most 1000 per mille, the outgoing payments are the floored
minter, creator and fee cuts plus the exact remainder to the issuer, and
the four parts sum exactly to P. -/
theorem c1_collect_settlement_conservation
    (sys : Marketplace.Sys) (sender : Addr) (P token_id cid : Nat)
    (r : FA2.TokenRoyalties) (sys2 : Marketplace.Sys) (pays : List (Addr × Nat))
    (hTc : sys.fa2.token_collection token_id = some cid)
    (hR : sys.fa2.collection_royalties cid = some r)
    (hSum : r.minter.royalties + r.creator.royalties + sys.mp.fee ≤ 1000)
    (hP : 0 < P)
    (hOk : Marketplace.collect sys sender P token_id = .ok (sys2, pays)) :
    (pays.map Prod.snd).sum = P ∧
    (∃ iss, pays.getLast? = some (iss,
      P - (Marketplace.split_tokens P r.minter.royalties 1000 +
        Marketplace.split_tokens P r.creator.royalties 1000 +
        Marketplace.split_tokens P sys.mp.fee 1000))) ∧
    Marketplace.split_tokens P r.minter.royalties 1000 +
      Marketplace.split_tokens P r.creator.royalties 1000 +
      Marketplace.split_tokens P sys.mp.fee 1000 +
      (P - (Marketplace.split_tokens P r.minter.royalties 1000 +
        Marketplace.split_tokens P r.creator.royalties 1000 +
        Marketplace.split_tokens P sys.mp.fee 1000)) = P := by
  have hle := cuts_le P r.minter.royalties r.creator.royalties sys.mp.fee hSum
  have hsplit : Marketplace.split_tokens P r.minter.royalties 1000 +
      Marketplace.split_tokens P r.creator.royalties 1000 +
      Marketplace.split_tokens P sys.mp.fee 1000 ≤ P := by
    unfold Marketplace.split_tokens; exact hle
  have hTR : Marketplace.token_royalties sys.fa2 token_id = .ok r := by
    unfold Marketplace.token_royalties
    rw [hTc]
    simp [hR]
  have blockProps : ∀ iss pays1,
      Marketplace.settleBlock sys P token_id iss = .ok pays1 →
      (pays1.map Prod.snd).sum = P ∧
      pays1.getLast? = some (iss,
        P - (Marketplace.split_tokens P r.minter.royalties 1000 +
          Marketplace.split_tokens P r.creator.royalties 1000 +
          Marketplace.split_tokens P sys.mp.fee 1000)) := by
    intro iss pays1 hb
    unfold Marketplace.settleBlock at hb
    rw [if_neg (by omega), hTR] at hb
    exact settle_props P r sys.mp.fee sys.mp.fee_recipient iss hSum pays1 hb
  unfold Marketplace.collect at hOk
  split at hOk
  · exact absurd hOk (by simp)
  split at hOk
  case _ sw heq =>
    split at hOk
    · exact absurd hOk (by simp)
    split at hOk
    · exact absurd hOk (by simp)
    split at hOk
    · exact absurd hOk (by simp)
    split at hOk
    · exact absurd hOk (by simp)
    case _ pays1 hset =>
      split at hOk
      · exact absurd hOk (by simp)
      case _ fa2h hfa =>
        simp only [Except.ok.injEq, Prod.mk.injEq] at hOk
        obtain ⟨-, hpays⟩ := hOk
        subst hpays
        exact ⟨(blockProps sw.issuer _ hset).1,
          ⟨sw.issuer, (blockProps sw.issuer _ hset).2⟩, by omega⟩
  case _ heq =>
    unfold Marketplace.try_collect_inside_collection at hOk
    rw [show Marketplace.get_token_collection_id sys.fa2 token_id = .ok cid from by
      unfold Marketplace.get_token_collection_id; rw [hTc]] at hOk
    split at hOk
    case _ e hcontr => exact absurd hcontr (by simp)
    case _ cid2 hcid2 =>
      obtain rfl : cid = cid2 := by
        simpa [Except.ok.injEq] using hcid2
      split at hOk
      · exact absurd hOk (by simp)
      case _ sw hcs =>
        split at hOk
        · exact absurd hOk (by simp)
        split at hOk
        case _ e hcontr => exact absurd hOk (by simp)
        case _ price hprice =>
          split at hOk
          · exact absurd hOk (by simp)
          split at hOk
          · exact absurd hOk (by simp)
          case _ pays1 hset =>
            split at hOk
            · exact absurd hOk (by simp)
            case _ fa2h hfa =>
              simp only [Except.ok.injEq, Prod.mk.injEq] at hOk
              obtain ⟨-, hpays⟩ := hOk
              subst hpays
              exact ⟨(blockProps sw.issuer _ hset).1,
                ⟨sw.issuer, (blockProps sw.issuer _ hset).2⟩, by omega⟩

/-- Witness for C1: collecting token 1 of the demo collection swap at its
band price 2000000 pays out parts that sum exactly to 2000000, with the
issuer receiving the remainder after the floored cuts. -/
theorem c1_witness :
    ((c1CollectResult.2.map Prod.snd).sum = 2000000) ∧
    (∃ iss, c1CollectResult.2.getLast? = some (iss,
      2000000 - (Marketplace.split_tokens 2000000 demoRoyalties.minter.royalties 1000 +
        Marketplace.split_tokens 2000000 demoRoyalties.creator.royalties 1000 +
        Marketplace.split_tokens 2000000 demoSys.mp.fee 1000))) ∧
    Marketplace.split_tokens 2000000 demoRoyalties.minter.royalties 1000 +
      Marketplace.split_tokens 2000000 demoRoyalties.creator.royalties 1000 +
      Marketplace.split_tokens 2000000 demoSys.mp.fee 1000 +
      (2000000 - (Marketplace.split_tokens 2000000 demoRoyalties.minter.royalties 1000 +
        Marketplace.split_tokens 2000000 demoRoyalties.creator.royalties 1000 +
        Marketplace.split_tokens 2000000 demoSys.mp.fee 1000)) = 2000000 := by
  have ⟨h1, h2, h3⟩ := c1_collect_settlement_conservation demoSys 6 2000000 1 0
    demoRoyalties c1CollectResult.1 c1CollectResult.2 rfl rfl (by decide) (by decide) rfl
  exact ⟨h1, h2, h3⟩

/-- C10: a DAO proposal on which no representative vote has been cast (a
representatives vote summary with total 0) makes `evaluate_voting_result`
fail unconditionally, because the scaling divides by the representatives'
vote total. -/
theorem c10_zero_representatives_evaluate_fails
    (st : DAO.Storage) (proposal_id : Nat) (rv : DAO.VotesSummary)
    (hrv : st.representatives_votes proposal_id = some rv)
    (hzero : rv.total = 0) :
    ∀ sender_balance now,
      isError (DAO.evaluate_voting_result st sender_balance now proposal_id) = true := by
  intro sb now
  unfold DAO.evaluate_voting_result
  split
  · rfl
  split
  · rfl
  split
  · rfl
  split
  · rfl
  split
  · rfl
  split
  · rfl
  case _ tv htv =>
    split
    · rfl
    case _ rv2 hrv2 =>
      obtain rfl : rv = rv2 := by
        rw [hrv] at hrv2
        simpa using hrv2
      rw [if_pos hzero]
      rfl

/-- Witness for C10: on the demo DAO storage with an all-zero
representatives summary, evaluation fails for a sample member and time. -/
theorem c10_witness :
    isError (DAO.evaluate_voting_result demoDaoZeroReps 100 864001 0) = true :=
  c10_zero_representatives_evaluate_fails demoDaoZeroReps 0 ⟨0, 0, 0, 0, 0⟩
    rfl rfl 100 864001

/-- C6: after the voting period, evaluation of an open proposal approves it
exactly when the combined positive votes reach the floored supermajority
threshold and the combined total reaches the quorum, the representative
contribution being scaled to `representatives_share%` of the quorum and
apportioned by the representatives' internal ratio; otherwise it rejects. -/
theorem c6_evaluate_approval_iff
    (st : DAO.Storage) (sender_balance : Nat) (now : Int) (pid : Nat)
    (p : DAO.Proposal) (tv rv : DAO.VotesSummary)
    (hbal : 0 < sender_balance)
    (hpid : pid < st.counter)
    (hp : st.proposals pid = some p)
    (hopen : p.status = .open_)
    (hend : DAO.add_days p.timestamp st.governance_parameters.voting_period < now)
    (htv : st.token_votes pid = some tv)
    (hrv : st.representatives_votes pid = some rv)
    (hrvt : rv.total ≠ 0) :
    ∃ st' effs, DAO.evaluate_voting_result st sender_balance now pid = .ok (st', effs) ∧
      (st'.proposals pid).map DAO.Proposal.status = some (
        if (DAO.combined_positive st tv rv + DAO.combined_negative st tv rv) *
              st.governance_parameters.supermajority / 100 ≤
              DAO.combined_positive st tv rv ∧
            st.quorum ≤ DAO.combined_total st tv
        then DAO.ProposalStatus.approved else DAO.ProposalStatus.rejected) := by
  unfold DAO.evaluate_voting_result
  rw [if_neg (by omega), if_neg (by omega)]
  rw [hp]
  simp only [htv, hrv]
  rw [if_neg (by simp [hopen]), if_neg (by omega), if_neg hrvt]
  refine ⟨_, _, rfl, ?_⟩
  unfold DAO.combined_positive DAO.combined_negative DAO.combined_total
    DAO.scaled_representatives_total
  split
  · simp [mapUpd]
  · simp [mapUpd]

/-- Witness for C6: on the demo DAO storage (7000 yes / 2000 no token
votes, one positive representative vote, quorum 8000) evaluation at a time
past the voting period approves the proposal. -/
theorem c6_witness :
    ∃ st' effs, DAO.evaluate_voting_result demoDao 100 864001 0 = .ok (st', effs) ∧
      (st'.proposals 0).map DAO.Proposal.status = some (
        if (DAO.combined_positive demoDao ⟨7000, 2000, 0, 9000, 3⟩ ⟨1, 0, 0, 1, 1⟩ +
              DAO.combined_negative demoDao ⟨7000, 2000, 0, 9000, 3⟩ ⟨1, 0, 0, 1, 1⟩) *
              demoDao.governance_parameters.supermajority / 100 ≤
              DAO.combined_positive demoDao ⟨7000, 2000, 0, 9000, 3⟩ ⟨1, 0, 0, 1, 1⟩ ∧
            demoDao.quorum ≤ DAO.combined_total demoDao ⟨7000, 2000, 0, 9000, 3⟩
        then DAO.ProposalStatus.approved else DAO.ProposalStatus.rejected) :=
  c6_evaluate_approval_iff demoDao 100 864001 0 demoProposal
    ⟨7000, 2000, 0, 9000, 3⟩ ⟨1, 0, 0, 1, 1⟩ (by decide) (by decide) rfl rfl
    (by decide) rfl rfl (by decide)

/-- The two successive conditional updates of the new quorum value are the
standard clamp to the `[lo, hi]` interval. -/
theorem clamp_eq (v lo hi : Nat) :
    (if hi < (if v < lo then lo else v) then hi else (if v < lo then lo else v)) =
      min (max v lo) hi := by
  by_cases h1 : v < lo
  · simp only [if_pos h1]
    split <;> omega
  · simp only [if_neg h1]
    split <;> omega

/-- C7: a successful evaluation strictly after the quorum-update cooldown
sets the quorum to `clamp(floor((80*old + 20*total)/100), min, max)` and
stamps `last_quorum_update` with the current time; at or before the
cooldown boundary both are left unchanged. -/
theorem c7_quorum_update
    (st : DAO.Storage) (sender_balance : Nat) (now : Int) (pid : Nat)
    (p : DAO.Proposal) (tv rv : DAO.VotesSummary)
    (hbal : 0 < sender_balance)
    (hpid : pid < st.counter)
    (hp : st.proposals pid = some p)
    (hopen : p.status = .open_)
    (hend : DAO.add_days p.timestamp st.governance_parameters.voting_period < now)
    (htv : st.token_votes pid = some tv)
    (hrv : st.representatives_votes pid = some rv)
    (hrvt : rv.total ≠ 0) :
    ∃ st' effs, DAO.evaluate_voting_result st sender_balance now pid = .ok (st', effs) ∧
      (DAO.add_days st.last_quorum_update st.governance_parameters.quorum_update_period <
          now →
        st'.quorum = min (max ((st.quorum * 80 + DAO.combined_total st tv * 20) / 100)
            st.governance_parameters.min_quorum)
          st.governance_parameters.max_quorum ∧
        st'.last_quorum_update = now) ∧
      (now ≤ DAO.add_days st.last_quorum_update
          st.governance_parameters.quorum_update_period →
        st'.quorum = st.quorum ∧ st'.last_quorum_update = st.last_quorum_update) := by
  unfold DAO.evaluate_voting_result
  rw [if_neg (by omega), if_neg (by omega)]
  rw [hp]
  simp only [htv, hrv]
  rw [if_neg (by simp [hopen]), if_neg (by omega), if_neg hrvt]
  refine ⟨_, _, rfl, ?_, ?_⟩
  · intro hcool
    rw [if_pos hcool]
    unfold DAO.combined_total DAO.scaled_representatives_total
    exact ⟨clamp_eq _ _ _, rfl⟩
  · intro hcool
    rw [if_neg (by omega)]
    exact ⟨rfl, rfl⟩

/-- Witness for C7: on the demo DAO storage, evaluation at time 864001
(past the 10-day cooldown from 0) updates the quorum per the clamped
moving average and stamps the update time. -/
theorem c7_witness :
    ∃ st' effs, DAO.evaluate_voting_result demoDao 100 864001 0 = .ok (st', effs) ∧
      (DAO.add_days demoDao.last_quorum_update
          demoDao.governance_parameters.quorum_update_period < 864001 →
        st'.quorum = min (max ((demoDao.quorum * 80 +
            DAO.combined_total demoDao ⟨7000, 2000, 0, 9000, 3⟩ * 20) / 100)
            demoDao.governance_parameters.min_quorum)
          demoDao.governance_parameters.max_quorum ∧
        st'.last_quorum_update = 864001) ∧
      (864001 ≤ DAO.add_days demoDao.last_quorum_update
          demoDao.governance_parameters.quorum_update_period →
        st'.quorum = demoDao.quorum ∧
        st'.last_quorum_update = demoDao.last_quorum_update) :=
  c7_quorum_update demoDao 100 864001 0 demoProposal
    ⟨7000, 2000, 0, 9000, 3⟩ ⟨1, 0, 0, 1, 1⟩ (by decide) (by decide) rfl rfl
    (by decide) rfl rfl (by decide)

/-- Once a band has been latched, the rest of the walk never changes the
price. -/
theorem price_walk_reached (k : Nat) :
    ∀ (pl : List Marketplace.PriceEntry) (cum p : Nat),
      Marketplace.price_walk k pl cum p true = p := by
  intro pl
  induction pl with
  | nil => intro cum p; rfl
  | cons e rest ih =>
      intro cum p
      unfold Marketplace.price_walk
      simp [ih]

/-- Walking with an already-accumulated quantity equals walking from zero
against the shifted offset, as long as the offset has not been passed. -/
theorem price_walk_shift :
    ∀ (pl : List Marketplace.PriceEntry) (k cum p : Nat), cum ≤ k →
      Marketplace.price_walk k pl cum p false =
        Marketplace.price_walk (k - cum) pl 0 p false := by
  intro pl
  induction pl with
  | nil => intro k cum p _; rfl
  | cons e rest ih =>
      intro k cum p hcum
      unfold Marketplace.price_walk
      by_cases hlt : k < cum + e.quantity
      · rw [if_pos ⟨hlt, rfl⟩, if_pos ⟨by omega, rfl⟩]
        rw [price_walk_reached, price_walk_reached]
      · rw [if_neg (by intro hc; exact hlt hc.1),
          if_neg (by intro hc; omega)]
        rw [ih k (cum + e.quantity) p (by omega)]
        rw [show (0 : Nat) + e.quantity = e.quantity by omega]
        rw [ih (k - cum) e.quantity p (by omega)]
        rw [Nat.sub_sub]

/-- The cumulative quantity of zero bands is zero. -/
theorem prefixQ_zero (pl : List Marketplace.PriceEntry) :
    Marketplace.prefixQ pl 0 = 0 := rfl

/-- Unfolding the cumulative quantity one band at a time. -/
theorem prefixQ_succ (e : Marketplace.PriceEntry) (rest : List Marketplace.PriceEntry)
    (n : Nat) :
    Marketplace.prefixQ (e :: rest) (n + 1) = e.quantity + Marketplace.prefixQ rest n := by
  unfold Marketplace.prefixQ
  simp

/-- The band walk resolves exactly the first band whose cumulative quantity
strictly exceeds the offset, and that band is unique. -/
theorem price_walk_first_band :
    ∀ (pl : List Marketplace.PriceEntry) (k p0 : Nat), k < Marketplace.sumQ pl →
      ∃ i : Fin pl.length,
        Marketplace.price_walk k pl 0 p0 false = (pl.get i).price ∧
        Marketplace.prefixQ pl i.val ≤ k ∧
        k < Marketplace.prefixQ pl (i.val + 1) ∧
        ∀ j : Fin pl.length,
          Marketplace.prefixQ pl j.val ≤ k →
          k < Marketplace.prefixQ pl (j.val + 1) → j.val = i.val := by
  intro pl
  induction pl with
  | nil => intro k p0 h; simp [Marketplace.sumQ] at h
  | cons e rest ih =>
      intro k p0 h
      by_cases hk : k < e.quantity
      · refine ⟨⟨0, by simp⟩, ?_, ?_, ?_, ?_⟩
        · show Marketplace.price_walk k (e :: rest) 0 p0 false = e.price
          unfold Marketplace.price_walk
          rw [if_pos ⟨by omega, rfl⟩]
          rw [price_walk_reached]
        · show Marketplace.prefixQ (e :: rest) 0 ≤ k
          rw [prefixQ_zero]
          omega
        · show k < Marketplace.prefixQ (e :: rest) (0 + 1)
          rw [prefixQ_succ, prefixQ_zero]
          omega
        · intro j hj1 hj2
          match j with
          | ⟨0, _⟩ => rfl
          | ⟨jv + 1, hjv⟩ =>
              exfalso
              rw [show (⟨jv + 1, hjv⟩ : Fin (e :: rest).length).val = jv + 1 from rfl,
                prefixQ_succ] at hj1
              omega
      · have hq : e.quantity ≤ k := by omega
        have h' : k - e.quantity < Marketplace.sumQ rest := by
          have hsum : Marketplace.sumQ (e :: rest) =
              e.quantity + Marketplace.sumQ rest := by
            unfold Marketplace.sumQ; simp
          omega
        obtain ⟨i', hw, hlo, hhi, huniq⟩ := ih (k - e.quantity) p0 h'
        have hlen : i'.val + 1 < (e :: rest).length := by
          simp only [List.length_cons]
          omega
        refine ⟨⟨i'.val + 1, hlen⟩, ?_, ?_, ?_, ?_⟩
        · show Marketplace.price_walk k (e :: rest) 0 p0 false = (rest.get i').price
          unfold Marketplace.price_walk
          rw [if_neg (by intro hc; omega)]
          rw [show (0 : Nat) + e.quantity = e.quantity by omega]
          rw [price_walk_shift rest k e.quantity p0 (by omega)]
          exact hw
        · show Marketplace.prefixQ (e :: rest) (i'.val + 1) ≤ k
          rw [prefixQ_succ]
          omega
        · show k < Marketplace.prefixQ (e :: rest) (i'.val + 1 + 1)
          rw [prefixQ_succ]
          omega
        · intro j hj1 hj2
          match j with
          | ⟨0, _⟩ =>
              exfalso
              rw [show (⟨0, by simp⟩ : Fin (e :: rest).length).val = 0 from rfl,
                prefixQ_succ, prefixQ_zero] at hj2
              omega
          | ⟨jv + 1, hjv⟩ =>
              show jv + 1 = i'.val + 1
              have h1 : Marketplace.prefixQ rest jv ≤ k - e.quantity := by
                rw [show (⟨jv + 1, hjv⟩ : Fin (e :: rest).length).val = jv + 1 from rfl,
                  prefixQ_succ] at hj1
                omega
              have h2 : k - e.quantity < Marketplace.prefixQ rest (jv + 1) := by
                rw [show (⟨jv + 1, hjv⟩ : Fin (e :: rest).length).val = jv + 1 from rfl,
                  prefixQ_succ] at hj2
                omega
              have := huniq ⟨jv, Nat.lt_of_succ_lt_succ hjv⟩ h1 h2
              have hjv2 : jv = i'.val := this
              omega

/-- C5: in a collection swap whose price list quantities sum to the
collection size N, every token at offset k (0 ≤ k < N) from the collection
start resolves to the price of the first band whose cumulative quantity
strictly exceeds k, and exactly one band satisfies that condition. -/
theorem c5_price_band_resolution
    (sw : Marketplace.CollectionSwap) (token_id N : Nat)
    (hN : Marketplace.sumQ sw.price_list = N)
    (hfirst : sw.first ≤ token_id)
    (hk : token_id - sw.first < N) :
    ∃ i : Fin sw.price_list.length,
      Marketplace.calculate_token_price_in_collection_swap token_id sw =
        .ok (sw.price_list.get i).price ∧
      Marketplace.prefixQ sw.price_list i.val ≤ token_id - sw.first ∧
      token_id - sw.first < Marketplace.prefixQ sw.price_list (i.val + 1) ∧
      ∀ j : Fin sw.price_list.length,
        Marketplace.prefixQ sw.price_list j.val ≤ token_id - sw.first →
        token_id - sw.first < Marketplace.prefixQ sw.price_list (j.val + 1) →
        j.val = i.val := by
  obtain ⟨i, hw, hlo, hhi, huniq⟩ :=
    price_walk_first_band sw.price_list (token_id - sw.first) 0 (by omega)
  refine ⟨i, ?_, hlo, hhi, huniq⟩
  unfold Marketplace.calculate_token_price_in_collection_swap
  rw [if_neg (by omega), hw]

/-- Witness for C5: token 1 of the demo collection swap (bands of
quantities 1 and 2 over a 3-token collection) resolves uniquely to the
second band. -/
theorem c5_witness :
    ∃ i : Fin ([⟨1, 1000000⟩, ⟨2, 2000000⟩] :
        List Marketplace.PriceEntry).length,
      Marketplace.calculate_token_price_in_collection_swap 1
          ⟨5, 0, 0, 2, [⟨1, 1000000⟩, ⟨2, 2000000⟩]⟩ =
        .ok (([⟨1, 1000000⟩, ⟨2, 2000000⟩] :
          List Marketplace.PriceEntry).get i).price ∧
      Marketplace.prefixQ [⟨1, 1000000⟩, ⟨2, 2000000⟩] i.val ≤ 1 - (0 : Nat) ∧
      1 - (0 : Nat) < Marketplace.prefixQ [⟨1, 1000000⟩, ⟨2, 2000000⟩] (i.val + 1) ∧
      ∀ j : Fin ([⟨1, 1000000⟩, ⟨2, 2000000⟩] :
          List Marketplace.PriceEntry).length,
        Marketplace.prefixQ [⟨1, 1000000⟩, ⟨2, 2000000⟩] j.val ≤ 1 - (0 : Nat) →
        1 - (0 : Nat) < Marketplace.prefixQ [⟨1, 1000000⟩, ⟨2, 2000000⟩] (j.val + 1) →
        j.val = i.val :=
  c5_price_band_resolution ⟨5, 0, 0, 2, [⟨1, 1000000⟩, ⟨2, 2000000⟩]⟩ 1 3
    (by decide) (by decide) (by decide)

/-- A one-transaction FA2 transfer whose token has a per-token ledger entry
naming a different owner than the declared one is rejected. -/
theorem applyTx_wrong_owner (caller from_ to_ : Addr) (s : FA2.State) (tid : Nat)
    (owner : Addr) (hl : s.ledger tid = some owner) (hown : from_ ≠ owner) :
    ∃ e, FA2.applyTx caller from_ s ⟨to_, tid, 1⟩ = .error e := by
  unfold FA2.applyTx
  rw [if_neg (show ¬ (2 ≤ (1 : Nat)) by decide),
    if_neg (show ¬ ((1 : Nat) = 0) by decide)]
  by_cases hc : s.counter ≤ tid
  · rw [if_pos hc]
    exact ⟨_, rfl⟩
  · rw [if_neg hc]
    have hneg : ¬ (owner = from_) := fun h => hown h.symm
    simp only [hl, hneg, if_false]
    exact ⟨_, rfl⟩

/-- A singleton FA2 transfer batch fails exactly as its one transaction
does. -/
theorem transfer_single_error (s : FA2.State) (caller from_ : Addr) (tx : FA2.TxItem)
    (e : String) (h : FA2.applyTx caller from_ s tx = .error e) :
    FA2.transfer s caller [⟨from_, [tx]⟩] = .error e := by
  unfold FA2.transfer
  simp [List.foldlM, h, Bind.bind, Except.bind]

/-- C9: a second `swap` on a token that already has an active swap record
(one or more live editions, custody held by the marketplace) always fails:
the custody transfer from the caller cannot succeed because the per-token
ledger names the marketplace as owner. -/
theorem c9_double_swap_fails
    (sys : Marketplace.Sys) (sender : Addr) (token_id : Nat) (sw : Marketplace.Swap)
    (hsw : sys.mp.swaps token_id = some sw)
    (hed : 0 < sw.editions)
    (hcust : sys.fa2.ledger token_id = some sys.mpAddr)
    (hsender : sender ≠ sys.mpAddr) :
    ∀ amount price,
      isError (Marketplace.swap sys sender amount token_id price) = true := by
  intro amount price
  unfold Marketplace.swap
  split
  · rfl
  split
  · rfl
  split
  · rfl
  case _ r hr =>
    split
    · rfl
    · split
      · rfl
      case _ fa2h htr =>
        exfalso
        obtain ⟨e, happ⟩ := applyTx_wrong_owner sys.mpAddr sender sys.mpAddr sys.fa2
          token_id sys.mpAddr hcust hsender
        rw [transfer_single_error sys.fa2 sys.mpAddr sender _ e happ] at htr
        simp at htr

/-- Witness for C9: on the demo system with an active swap of token 0 held
in marketplace custody, a second swap attempt by address 7 (no tez sent,
price 600) fails. -/
theorem c9_witness :
    isError (Marketplace.swap demoSysActiveSwap 7 0 0 600) = true :=
  c9_double_swap_fails demoSysActiveSwap 7 0 ⟨5, 0, 1, 500⟩ rfl (by decide) rfl
    (by decide) 0 600

/-- Counterexample for C8: under-allocation (2 of 3 tokens priced) and
over-allocation (4 of 3 tokens priced) are rejected with the very same
error value, not with a distinct error each. -/
theorem c8_counterexample :
    Marketplace.swap_collection demoSysFresh 5 0 0 [⟨2, 100⟩] =
      Marketplace.swap_collection demoSysFresh 5 0 0 [⟨4, 100⟩] ∧
    Marketplace.swap_collection demoSysFresh 5 0 0 [⟨2, 100⟩] =
      .error "MP_PRICELIST_NOT_SUMMING_TO_TOKEN_QUANTITY" :=
  ⟨rfl, rfl⟩

/-- C8 (amended): `swap_collection` succeeds only when the price-list
quantities sum exactly to the collection's token count, and any mismatch,
under- or over-allocation alike, is rejected with the single error
MP_PRICELIST_NOT_SUMMING_TO_TOKEN_QUANTITY. -/
theorem c8_swap_collection_exact_sum
    (sys : Marketplace.Sys) (sender : Addr) (cid : Nat)
    (r : FA2.TokenRoyalties) (first last : Nat)
    (hpause : sys.mp.swaps_paused = false)
    (hr : Marketplace.collection_royalties sys.fa2 cid = .ok r)
    (hsum : sys.mp.fee + r.minter.royalties + r.creator.royalties ≤ 1000)
    (hfl : Marketplace.collection_first_last_tokens sys.fa2 cid = .ok (first, last))
    (hnn : first ≤ last + 1) :
    (∀ price_list : List Marketplace.PriceEntry,
       price_list.foldl (fun acc e => acc + e.quantity) 0 ≠ last + 1 - first →
       Marketplace.swap_collection sys sender 0 cid price_list =
         .error "MP_PRICELIST_NOT_SUMMING_TO_TOKEN_QUANTITY") ∧
    (∀ (price_list : List Marketplace.PriceEntry) (sys' : Marketplace.Sys),
       Marketplace.swap_collection sys sender 0 cid price_list = .ok sys' →
       price_list.foldl (fun acc e => acc + e.quantity) 0 = last + 1 - first) := by
  constructor
  · intro price_list hne
    unfold Marketplace.swap_collection
    rw [if_neg (by simp [hpause]), if_neg (by simp)]
    simp only [hr]
    rw [if_neg (by omega)]
    simp only [hfl]
    rw [if_neg (by omega), if_pos hne]
  · intro price_list sys' hOk
    by_cases hne : price_list.foldl (fun acc e => acc + e.quantity) 0 = last + 1 - first
    · exact hne
    · exfalso
      unfold Marketplace.swap_collection at hOk
      rw [if_neg (by simp [hpause]), if_neg (by simp)] at hOk
      simp only [hr] at hOk
      rw [if_neg (by omega)] at hOk
      simp only [hfl] at hOk
      rw [if_neg (by omega), if_pos hne] at hOk
      simp at hOk

/-- Witness for C8 (amended): instantiated on the demo fresh 3-token
collection. -/
theorem c8_witness :
    (∀ price_list : List Marketplace.PriceEntry,
       price_list.foldl (fun acc e => acc + e.quantity) 0 ≠ 2 + 1 - 0 →
       Marketplace.swap_collection demoSysFresh 5 0 0 price_list =
         .error "MP_PRICELIST_NOT_SUMMING_TO_TOKEN_QUANTITY") ∧
    (∀ (price_list : List Marketplace.PriceEntry) (sys' : Marketplace.Sys),
       Marketplace.swap_collection demoSysFresh 5 0 0 price_list = .ok sys' →
       price_list.foldl (fun acc e => acc + e.quantity) 0 = 2 + 1 - 0) :=
  c8_swap_collection_exact_sum demoSysFresh 5 0 demoRoyalties 0 2 rfl rfl
    (by decide) rfl (by decide)

/-- A singleton FA2 transfer batch succeeds exactly as its one transaction
does. -/
theorem transfer_single_ok (s : FA2.State) (caller from_ : Addr) (tx : FA2.TxItem)
    (s' : FA2.State) (h : FA2.applyTx caller from_ s tx = .ok s') :
    FA2.transfer s caller [⟨from_, [tx]⟩] = .ok s' := by
  unfold FA2.transfer
  simp [List.foldlM, h, Bind.bind, Except.bind, Pure.pure, Except.pure]

/-- A transfer by the resolved collection-fallback owner of an existing
token succeeds and performs the ledger write plus not-fresh marking. -/
theorem applyTx_fallback_ok (caller to_ : Addr) (s : FA2.State) (tid cid : Nat)
    (hcount : tid < s.counter) (hl : s.ledger tid = none)
    (htc : s.token_collection tid = some cid)
    (hcl : s.collection_ledger cid = some caller) :
    FA2.applyTx caller caller s ⟨to_, tid, 1⟩ = .ok
      { s with ledger := mapUpd s.ledger tid to_,
               collection_not_fresh := setUpd s.collection_not_fresh cid true } := by
  unfold FA2.applyTx
  rw [if_neg (show ¬ (2 ≤ (1 : Nat)) by decide),
    if_neg (show ¬ ((1 : Nat) = 0) by decide),
    if_neg (show ¬ (s.counter ≤ tid) by omega)]
  simp only [hl, htc, hcl]
  simp

/-- The closed form of a successful settlement under the per-mille bound. -/
theorem settle_ok_form (P : Nat) (r : FA2.TokenRoyalties) (fee : Nat) (fr iss : Addr)
    (h : r.minter.royalties + r.creator.royalties + fee ≤ 1000) :
    Marketplace.settle P r fee fr iss = .ok
      ((if 0 < Marketplace.split_tokens P r.minter.royalties 1000 then
          [(r.minter.address, Marketplace.split_tokens P r.minter.royalties 1000)] else []) ++
       (if 0 < Marketplace.split_tokens P r.creator.royalties 1000 then
          [(r.creator.address, Marketplace.split_tokens P r.creator.royalties 1000)] else []) ++
       (if 0 < Marketplace.split_tokens P fee 1000 then
          [(fr, Marketplace.split_tokens P fee 1000)] else []) ++
       [(iss, P - Marketplace.split_tokens P r.minter.royalties 1000 -
          Marketplace.split_tokens P r.creator.royalties 1000 -
          Marketplace.split_tokens P fee 1000)]) := by
  unfold Marketplace.settle
  rw [if_neg (by
    have := cuts_le P r.minter.royalties r.creator.royalties fee h
    unfold Marketplace.split_tokens
    omega)]

/-- The guarded settlement block succeeds whenever the royalties resolve
and the per-mille shares sum to at most 1000. -/
theorem settleBlock_ok (sys : Marketplace.Sys) (amount token_id : Nat) (iss : Addr)
    (r : FA2.TokenRoyalties)
    (hTR : Marketplace.token_royalties sys.fa2 token_id = .ok r)
    (hsum : r.minter.royalties + r.creator.royalties + sys.mp.fee ≤ 1000) :
    ∃ pays, Marketplace.settleBlock sys amount token_id iss = .ok pays := by
  unfold Marketplace.settleBlock
  by_cases h0 : amount = 0
  · rw [if_pos h0]
    exact ⟨_, rfl⟩
  · rw [if_neg h0, hTR]
    exact ⟨_, settle_ok_form amount r sys.mp.fee sys.mp.fee_recipient iss hsum⟩

/-- C4: once a token has been individually collected out of an active
collection swap (leaving its zero-edition tombstone swap record), every
further collect on that token id fails, while any other token of the same
collection swap still resolving through the collection is collectible at
its band price. -/
theorem c4_tombstone_precedence
    (sys : Marketplace.Sys) (token_id : Nat) (sw : Marketplace.Swap)
    (hts : sys.mp.swaps token_id = some sw)
    (hzero : sw.editions = 0) :
    (∀ sender amount,
       isError (Marketplace.collect sys sender amount token_id) = true) ∧
    (∀ (tid2 cid : Nat) (cs : Marketplace.CollectionSwap) (sender : Addr)
       (price : Nat) (r : FA2.TokenRoyalties),
       sys.mp.collects_paused = false →
       sys.mp.swaps tid2 = none →
       sys.fa2.token_collection tid2 = some cid →
       sys.mp.collection_swaps cid = some cs →
       sender ≠ cs.issuer →
       Marketplace.calculate_token_price_in_collection_swap tid2 cs = .ok price →
       sys.fa2.collection_royalties cid = some r →
       r.minter.royalties + r.creator.royalties + sys.mp.fee ≤ 1000 →
       tid2 < sys.fa2.counter →
       sys.fa2.ledger tid2 = none →
       sys.fa2.collection_ledger cid = some sys.mpAddr →
       ∃ sys2 pays, Marketplace.collect sys sender price tid2 = .ok (sys2, pays) ∧
         sys2.mp.swaps tid2 = some ⟨sender, tid2, 0, 0⟩) := by
  constructor
  · intro sender amount
    unfold Marketplace.collect
    split
    · rfl
    split
    case _ sw2 heq =>
      obtain rfl : sw = sw2 := by rw [hts] at heq; simpa using heq
      by_cases hs : sender = sw.issuer
      · rw [if_pos hs]
        rfl
      · rw [if_neg hs, if_pos hzero]
        rfl
    case _ heq =>
      rw [hts] at heq
      simp at heq
  · intro tid2 cid cs sender price r hpause hnone htc hcs hiss hprice hroy hsum
      hcount hl hcl
    have hTR : Marketplace.token_royalties sys.fa2 tid2 = .ok r := by
      unfold Marketplace.token_royalties
      rw [htc]
      simp [hroy]
    obtain ⟨pays, hpays⟩ := settleBlock_ok sys price tid2 cs.issuer r hTR hsum
    have htr := transfer_single_ok sys.fa2 sys.mpAddr sys.mpAddr
      ⟨sender, tid2, 1⟩ _ (applyTx_fallback_ok sys.mpAddr sender sys.fa2 tid2 cid
        hcount hl htc hcl)
    unfold Marketplace.collect
    rw [if_neg (by simp [hpause])]
    simp only [hnone]
    unfold Marketplace.try_collect_inside_collection
    rw [show Marketplace.get_token_collection_id sys.fa2 tid2 = .ok cid from by
      unfold Marketplace.get_token_collection_id; rw [htc]]
    simp only [hcs]
    rw [if_neg hiss]
    simp only [hprice]
    rw [if_neg (by simp)]
    simp only [hpays]
    rw [htr]
    exact ⟨_, pays, rfl, by simp [mapUpd]⟩

/-- Witness for C4: on the demo system, the tombstoned token 0 can no
longer be collected while token 1 of the same collection swap is still
collectible at its band price. -/
theorem c4_witness :
    (∀ sender amount,
       isError (Marketplace.collect demoSys sender amount 0) = true) ∧
    (∀ (tid2 cid : Nat) (cs : Marketplace.CollectionSwap) (sender : Addr)
       (price : Nat) (r : FA2.TokenRoyalties),
       demoSys.mp.collects_paused = false →
       demoSys.mp.swaps tid2 = none →
       demoSys.fa2.token_collection tid2 = some cid →
       demoSys.mp.collection_swaps cid = some cs →
       sender ≠ cs.issuer →
       Marketplace.calculate_token_price_in_collection_swap tid2 cs = .ok price →
       demoSys.fa2.collection_royalties cid = some r →
       r.minter.royalties + r.creator.royalties + demoSys.mp.fee ≤ 1000 →
       tid2 < demoSys.fa2.counter →
       demoSys.fa2.ledger tid2 = none →
       demoSys.fa2.collection_ledger cid = some demoSys.mpAddr →
       ∃ sys2 pays, Marketplace.collect demoSys sender price tid2 = .ok (sys2, pays) ∧
         sys2.mp.swaps tid2 = some ⟨sender, tid2, 0, 0⟩) :=
  c4_tombstone_precedence demoSys 0 ⟨7, 0, 0, 0⟩ rfl rfl

/-- The mint loop advances the token counter by the number of minted
tokens. -/
theorem mintLoop_counter (cid : Nat) :
    ∀ (n : Nat) (s : FA2.State), (FA2.mintLoop s cid n).counter = s.counter + n := by
  intro n
  induction n with
  | zero => intro s; rfl
  | succ n ih =>
      intro s
      rw [FA2.mintLoop, ih]
      show s.counter + 1 + n = s.counter + (n + 1)
      omega

/-- The mint loop registers exactly the `n` new token ids into the new
collection and leaves all other ids untouched. -/
theorem mintLoop_token_collection (cid : Nat) :
    ∀ (n : Nat) (s : FA2.State) (t : Nat),
      (FA2.mintLoop s cid n).token_collection t =
        if s.counter ≤ t ∧ t < s.counter + n then some cid
        else s.token_collection t := by
  intro n
  induction n with
  | zero =>
      intro s t
      rw [if_neg (by omega)]
      rfl
  | succ n ih =>
      intro s t
      rw [FA2.mintLoop, ih]
      show (if s.counter + 1 ≤ t ∧ t < s.counter + 1 + n then some cid
        else mapUpd s.token_collection s.counter cid t) = _
      unfold mapUpd
      by_cases h1 : s.counter + 1 ≤ t ∧ t < s.counter + 1 + n
      · rw [if_pos h1, if_pos (by omega)]
      · rw [if_neg h1]
        by_cases h2 : t = s.counter
        · rw [if_pos h2, if_pos (by omega)]
        · rw [if_neg h2, if_neg (by omega)]

/-- The mint loop touches no field besides the token counter and the
token-collection map. -/
theorem mintLoop_frame (cid : Nat) :
    ∀ (n : Nat) (s : FA2.State),
      (FA2.mintLoop s cid n).collection_ledger = s.collection_ledger ∧
      (FA2.mintLoop s cid n).collection_not_fresh = s.collection_not_fresh ∧
      (FA2.mintLoop s cid n).collection_counter = s.collection_counter ∧
      (FA2.mintLoop s cid n).ledger = s.ledger := by
  intro n
  induction n with
  | zero => intro s; exact ⟨rfl, rfl, rfl, rfl⟩
  | succ n ih =>
      intro s
      rw [FA2.mintLoop]
      exact ih _

/-- A successful individual transfer transaction leaves the counters, the
token-collection map and the collection ledger untouched, only extends the
not-fresh set, and marks the touched token's collection not fresh. -/
theorem applyTx_ok_fields (sender from_ : Addr) (s : FA2.State) (tx : FA2.TxItem)
    (s' : FA2.State) (h : FA2.applyTx sender from_ s tx = .ok s') :
    s'.counter = s.counter ∧ s'.token_collection = s.token_collection ∧
    s'.collection_ledger = s.collection_ledger ∧
    s'.collection_counter = s.collection_counter ∧
    (∀ c, s.collection_not_fresh c = true → s'.collection_not_fresh c = true) ∧
    (∀ c, s.token_collection tx.token_id = some c →
      s'.collection_not_fresh c = true) := by
  unfold FA2.applyTx at h
  repeat' split at h
  all_goals first
  | (simp only [Except.ok.injEq] at h
     subst h
     refine ⟨rfl, rfl, rfl, rfl, ?_, ?_⟩
     · intro c hc
       simp_all [setUpd]
     · intro c hc
       simp_all [setUpd])
  | exact absurd h (by simp)

/-- The inner transaction fold preserves the transfer frame. -/
theorem txs_fold_fields (sender from_ : Addr) :
    ∀ (txs : List FA2.TxItem) (s s' : FA2.State),
      txs.foldlM (FA2.applyTx sender from_) s = .ok s' →
      s'.counter = s.counter ∧ s'.token_collection = s.token_collection ∧
      s'.collection_ledger = s.collection_ledger ∧
      s'.collection_counter = s.collection_counter ∧
      (∀ c, s.collection_not_fresh c = true → s'.collection_not_fresh c = true) := by
  intro txs
  induction txs with
  | nil =>
      intro s s' h
      simp [List.foldlM, Pure.pure, Except.pure] at h
      subst h
      exact ⟨rfl, rfl, rfl, rfl, fun _ hc => hc⟩
  | cons tx rest ih =>
      intro s s' h
      rw [List.foldlM_cons] at h
      obtain ⟨mid, hmid, hrest⟩ := exists_of_bind_ok h
      obtain ⟨h1, h2, h3, h4, h5, -⟩ := applyTx_ok_fields sender from_ s tx mid hmid
      obtain ⟨g1, g2, g3, g4, g5⟩ := ih mid s' hrest
      exact ⟨by rw [g1, h1], by rw [g2, h2], by rw [g3, h3], by rw [g4, h4],
        fun c hc => g5 c (h5 c hc)⟩

/-- The outer transfer fold preserves the transfer frame. -/
theorem items_fold_fields (sender : Addr) :
    ∀ (items : List FA2.TransferItem) (s s' : FA2.State),
      FA2.transfer s sender items = .ok s' →
      s'.counter = s.counter ∧ s'.token_collection = s.token_collection ∧
      s'.collection_ledger = s.collection_ledger ∧
      s'.collection_counter = s.collection_counter ∧
      (∀ c, s.collection_not_fresh c = true → s'.collection_not_fresh c = true) := by
  intro items
  induction items with
  | nil =>
      intro s s' h
      simp [FA2.transfer, List.foldlM, Pure.pure, Except.pure] at h
      subst h
      exact ⟨rfl, rfl, rfl, rfl, fun _ hc => hc⟩
  | cons item rest ih =>
      intro s s' h
      unfold FA2.transfer at h
      rw [List.foldlM_cons] at h
      obtain ⟨mid, hmid, hrest⟩ := exists_of_bind_ok h
      obtain ⟨h1, h2, h3, h4, h5⟩ := txs_fold_fields sender item.from_ item.txs s mid hmid
      obtain ⟨g1, g2, g3, g4, g5⟩ := ih mid s' hrest
      exact ⟨by rw [g1, h1], by rw [g2, h2], by rw [g3, h3], by rw [g4, h4],
        fun c hc => g5 c (h5 c hc)⟩

/-- A successful transaction fold marks the collection of every
transaction it contains as not fresh. -/
theorem txs_fold_marks (sender from_ : Addr) :
    ∀ (txs : List FA2.TxItem) (s s' : FA2.State) (tx : FA2.TxItem) (cid : Nat),
      txs.foldlM (FA2.applyTx sender from_) s = .ok s' →
      tx ∈ txs → s.token_collection tx.token_id = some cid →
      s'.collection_not_fresh cid = true := by
  intro txs
  induction txs with
  | nil => intro s s' tx cid h hmem; exact absurd hmem (by simp)
  | cons tx0 rest ih =>
      intro s s' tx cid h hmem hcid
      rw [List.foldlM_cons] at h
      obtain ⟨mid, hmid, hrest⟩ := exists_of_bind_ok h
      obtain ⟨-, h2, -, -, h5, h6⟩ := applyTx_ok_fields sender from_ s tx0 mid hmid
      rcases List.mem_cons.mp hmem with rfl | hmem2
      · obtain ⟨-, -, -, -, g5⟩ := txs_fold_fields sender from_ rest mid s' hrest
        exact g5 cid (h6 cid hcid)
      · exact ih mid s' tx cid hrest hmem2 (by rw [h2]; exact hcid)

/-- A successful transfer batch marks the collection of every transaction
it contains as not fresh. -/
theorem transfer_marks (sender : Addr) :
    ∀ (items : List FA2.TransferItem) (s s' : FA2.State)
      (item : FA2.TransferItem) (tx : FA2.TxItem) (cid : Nat),
      FA2.transfer s sender items = .ok s' →
      item ∈ items → tx ∈ item.txs → s.token_collection tx.token_id = some cid →
      s'.collection_not_fresh cid = true := by
  intro items
  induction items with
  | nil => intro s s' item tx cid h hmem; exact absurd hmem (by simp)
  | cons item0 rest ih =>
      intro s s' item tx cid h hmem htx hcid
      unfold FA2.transfer at h
      rw [List.foldlM_cons] at h
      obtain ⟨mid, hmid, hrest⟩ := exists_of_bind_ok h
      obtain ⟨-, h2, -, -, h5⟩ := txs_fold_fields sender item0.from_ item0.txs s mid hmid
      rcases List.mem_cons.mp hmem with rfl | hmem2
      · have hmark := txs_fold_marks sender item.from_ item.txs s mid tx cid hmid htx hcid
        obtain ⟨-, -, -, -, g5⟩ := items_fold_fields sender rest mid s' hrest
        exact g5 cid hmark
      · exact ih mid s' item tx cid hrest hmem2 htx (by rw [h2]; exact hcid)

/-- Shape of a successful `mint_collection`: `total` new token ids in the
new collection, a new collection ledger entry for the minter, and no
change to the not-fresh set. -/
theorem mint_ok_shape (s : FA2.State) (sender : Addr) (p : FA2.MintParams)
    (s' : FA2.State) (h : FA2.mint_collection s sender p = .ok s') :
    s'.counter = s.counter + p.total ∧
    s'.collection_not_fresh = s.collection_not_fresh ∧
    (∀ t, s'.token_collection t =
      if s.counter ≤ t ∧ t < s.counter + p.total then some s.collection_counter
      else s.token_collection t) ∧
    (∀ c, s'.collection_ledger c =
      if c = s.collection_counter then some p.royalties.minter.address
      else s.collection_ledger c) := by
  unfold FA2.mint_collection at h
  split at h
  · simp at h
  split at h
  · simp at h
  split at h
  · simp at h
  simp only [Except.ok.injEq] at h
  subst h
  refine ⟨?_, ?_, ?_, ?_⟩
  · show (FA2.mintLoop _ s.collection_counter p.total).counter = _
    rw [mintLoop_counter]
  · show (FA2.mintLoop _ s.collection_counter p.total).collection_not_fresh = _
    rw [(mintLoop_frame s.collection_counter p.total _).2.1]
  · intro t
    show (FA2.mintLoop _ s.collection_counter p.total).token_collection t = _
    rw [mintLoop_token_collection]
  · intro c
    show (FA2.mintLoop _ s.collection_counter p.total).collection_ledger c = _
    rw [(mintLoop_frame s.collection_counter p.total _).1]
    rfl

/-- Shape of a successful `transfer_collection`: only the collection
ledger entry of the transferred collection changes. -/
theorem transfer_collection_ok_shape (s : FA2.State) (sender from_ to_ : Addr)
    (cid : Nat) (s' : FA2.State)
    (h : FA2.transfer_collection s sender from_ to_ cid = .ok s') :
    s'.counter = s.counter ∧ s'.token_collection = s.token_collection ∧
    s'.collection_not_fresh = s.collection_not_fresh ∧
    (∀ c, s'.collection_ledger c = if c = cid then some to_ else s.collection_ledger c) := by
  unfold FA2.transfer_collection at h
  repeat' split at h
  all_goals first
  | (simp only [Except.ok.injEq] at h
     subst h
     exact ⟨rfl, rfl, rfl, fun c => rfl⟩)
  | exact absurd h (by simp)

/-- A successful operator update only touches the operators map. -/
theorem applyOperatorUpdate_frame (sender : Addr) (s : FA2.State)
    (u : FA2.OperatorUpdate) (s' : FA2.State)
    (h : FA2.applyOperatorUpdate sender s u = .ok s') :
    s'.counter = s.counter ∧ s'.token_collection = s.token_collection ∧
    s'.collection_ledger = s.collection_ledger ∧
    s'.collection_counter = s.collection_counter ∧
    s'.collection_not_fresh = s.collection_not_fresh := by
  unfold FA2.applyOperatorUpdate at h
  repeat' split at h
  all_goals first
  | (simp only [Except.ok.injEq] at h
     subst h
     exact ⟨rfl, rfl, rfl, rfl, rfl⟩)
  | exact absurd h (by simp)

/-- The operator update batch only touches the operators map. -/
theorem update_operators_frame (sender : Addr) :
    ∀ (us : List FA2.OperatorUpdate) (s s' : FA2.State),
      FA2.update_operators s sender us = .ok s' →
      s'.counter = s.counter ∧ s'.token_collection = s.token_collection ∧
      s'.collection_ledger = s.collection_ledger ∧
      s'.collection_counter = s.collection_counter ∧
      s'.collection_not_fresh = s.collection_not_fresh := by
  intro us
  induction us with
  | nil =>
      intro s s' h
      simp [FA2.update_operators, List.foldlM, Pure.pure, Except.pure] at h
      subst h
      exact ⟨rfl, rfl, rfl, rfl, rfl⟩
  | cons u rest ih =>
      intro s s' h
      unfold FA2.update_operators at h
      rw [List.foldlM_cons] at h
      obtain ⟨mid, hmid, hrest⟩ := exists_of_bind_ok h
      obtain ⟨h1, h2, h3, h4, h5⟩ := applyOperatorUpdate_frame sender s u mid hmid
      obtain ⟨g1, g2, g3, g4, g5⟩ := ih mid s' hrest
      exact ⟨by rw [g1, h1], by rw [g2, h2], by rw [g3, h3], by rw [g4, h4],
        by rw [g5, h5]⟩

/-- A successful collection operator update only touches the collection
operators map. -/
theorem applyCollectionOperatorUpdate_frame (sender : Addr) (s : FA2.State)
    (u : FA2.CollectionOperatorUpdate) (s' : FA2.State)
    (h : FA2.applyCollectionOperatorUpdate sender s u = .ok s') :
    s'.counter = s.counter ∧ s'.token_collection = s.token_collection ∧
    s'.collection_ledger = s.collection_ledger ∧
    s'.collection_counter = s.collection_counter ∧
    s'.collection_not_fresh = s.collection_not_fresh := by
  unfold FA2.applyCollectionOperatorUpdate at h
  repeat' split at h
  all_goals first
  | (simp only [Except.ok.injEq] at h
     subst h
     exact ⟨rfl, rfl, rfl, rfl, rfl⟩)
  | exact absurd h (by simp)

/-- The collection operator update batch only touches the collection
operators map. -/
theorem update_collection_operators_frame (sender : Addr) :
    ∀ (us : List FA2.CollectionOperatorUpdate) (s s' : FA2.State),
      FA2.update_collection_operators s sender us = .ok s' →
      s'.counter = s.counter ∧ s'.token_collection = s.token_collection ∧
      s'.collection_ledger = s.collection_ledger ∧
      s'.collection_counter = s.collection_counter ∧
      s'.collection_not_fresh = s.collection_not_fresh := by
  intro us
  induction us with
  | nil =>
      intro s s' h
      simp [FA2.update_collection_operators, List.foldlM, Pure.pure, Except.pure] at h
      subst h
      exact ⟨rfl, rfl, rfl, rfl, rfl⟩
  | cons u rest ih =>
      intro s s' h
      unfold FA2.update_collection_operators at h
      rw [List.foldlM_cons] at h
      obtain ⟨mid, hmid, hrest⟩ := exists_of_bind_ok h
      obtain ⟨h1, h2, h3, h4, h5⟩ := applyCollectionOperatorUpdate_frame sender s u mid hmid
      obtain ⟨g1, g2, g3, g4, g5⟩ := ih mid s' hrest
      exact ⟨by rw [g1, h1], by rw [g2, h2], by rw [g3, h3], by rw [g4, h4],
        by rw [g5, h5]⟩

/-- The administrator handover entry points only touch the administrator
fields. -/
theorem admin_frame (s : FA2.State) (sender proposed : Addr) (s' : FA2.State) :
    (FA2.transfer_administrator s sender proposed = .ok s' ∨
      FA2.accept_administrator s sender = .ok s') →
    s'.counter = s.counter ∧ s'.token_collection = s.token_collection ∧
    s'.collection_ledger = s.collection_ledger ∧
    s'.collection_counter = s.collection_counter ∧
    s'.collection_not_fresh = s.collection_not_fresh := by
  intro h
  rcases h with h | h
  · unfold FA2.transfer_administrator at h
    repeat' split at h
    all_goals first
    | (simp only [Except.ok.injEq] at h
       subst h
       exact ⟨rfl, rfl, rfl, rfl, rfl⟩)
    | exact absurd h (by simp)
  · unfold FA2.accept_administrator at h
    repeat' split at h
    all_goals first
    | (simp only [Except.ok.injEq] at h
       subst h
       exact ⟨rfl, rfl, rfl, rfl, rfl⟩)
    | exact absurd h (by simp)

/-- No FA2 entry point ever clears a not-fresh mark. -/
theorem step_not_fresh_mono (s s' : FA2.State) (h : FA2.Step s s') (c : Nat)
    (hc : s.collection_not_fresh c = true) : s'.collection_not_fresh c = true := by
  cases h with
  | mint sender p hm =>
      rw [(mint_ok_shape _ _ _ _ hm).2.1]
      exact hc
  | transfer sender items hm =>
      exact (items_fold_fields sender items _ _ hm).2.2.2.2 c hc
  | transfer_collection sender from_ to_ cid hm =>
      rw [(transfer_collection_ok_shape _ _ _ _ _ _ hm).2.2.1]
      exact hc
  | update_operators sender us hm =>
      rw [(update_operators_frame sender us _ _ hm).2.2.2.2]
      exact hc
  | update_collection_operators sender us hm =>
      rw [(update_collection_operators_frame sender us _ _ hm).2.2.2.2]
      exact hc
  | transfer_administrator sender proposed hm =>
      rw [(admin_frame _ sender proposed _ (Or.inl hm)).2.2.2.2]
      exact hc
  | accept_administrator sender hm =>
      rw [(admin_frame _ sender sender _ (Or.inr hm)).2.2.2.2]
      exact hc

/-- Not-fresh marks survive any chain of FA2 entry-point invocations. -/
theorem reachableFrom_not_fresh (s s' : FA2.State) (h : FA2.ReachableFrom s s')
    (c : Nat) (hc : s.collection_not_fresh c = true) :
    s'.collection_not_fresh c = true := by
  induction h with
  | refl => exact hc
  | tail hab hbc ih => exact step_not_fresh_mono _ _ hbc c ih

/-- `transfer_collection` always fails on a not-fresh collection. -/
theorem not_fresh_blocks (s : FA2.State) (cid : Nat)
    (h : s.collection_not_fresh cid = true) :
    ∀ sender from_ to_,
      isError (FA2.transfer_collection s sender from_ to_ cid) = true := by
  intro sender from_ to_
  unfold FA2.transfer_collection
  by_cases h1 : s.collection_counter ≤ cid
  · rw [if_pos h1]
    rfl
  · rw [if_neg h1, if_pos h]
    rfl

/-- Every FA2 entry point preserves the well-ownership invariant. -/
theorem step_inv (s s' : FA2.State) (h : FA2.Step s s') (hi : FA2.Inv s) :
    FA2.Inv s' := by
  cases h with
  | mint sender p hm =>
      obtain ⟨hc, -, htc, hcl⟩ := mint_ok_shape _ _ _ _ hm
      intro t ht
      rw [hc] at ht
      by_cases hnew : s.counter ≤ t ∧ t < s.counter + p.total
      · refine ⟨s.collection_counter, ?_, p.royalties.minter.address, ?_⟩
        · rw [htc t, if_pos hnew]
        · rw [hcl _, if_pos rfl]
      · obtain ⟨cid, hcid, a, ha⟩ := hi t (by omega)
        refine ⟨cid, ?_, ?_⟩
        · rw [htc t, if_neg hnew]
          exact hcid
        · by_cases hceq : cid = s.collection_counter
          · exact ⟨p.royalties.minter.address, by rw [hcl cid, if_pos hceq]⟩
          · exact ⟨a, by rw [hcl cid, if_neg hceq]; exact ha⟩
  | transfer sender items hm =>
      obtain ⟨h1, h2, h3, -, -⟩ := items_fold_fields sender items _ _ hm
      intro t ht
      rw [h1] at ht
      obtain ⟨cid, hcid, a, ha⟩ := hi t ht
      exact ⟨cid, by rw [h2]; exact hcid, a, by rw [h3]; exact ha⟩
  | transfer_collection sender from_ to_ cid hm =>
      obtain ⟨h1, h2, -, h4⟩ := transfer_collection_ok_shape _ _ _ _ _ _ hm
      intro t ht
      rw [h1] at ht
      obtain ⟨cid2, hcid, a, ha⟩ := hi t ht
      refine ⟨cid2, by rw [h2]; exact hcid, ?_⟩
      by_cases hceq : cid2 = cid
      · exact ⟨to_, by rw [h4 cid2, if_pos hceq]⟩
      · exact ⟨a, by rw [h4 cid2, if_neg hceq]; exact ha⟩
  | update_operators sender us hm =>
      obtain ⟨h1, h2, h3, -, -⟩ := update_operators_frame sender us _ _ hm
      intro t ht
      rw [h1] at ht
      obtain ⟨cid, hcid, a, ha⟩ := hi t ht
      exact ⟨cid, by rw [h2]; exact hcid, a, by rw [h3]; exact ha⟩
  | update_collection_operators sender us hm =>
      obtain ⟨h1, h2, h3, -, -⟩ := update_collection_operators_frame sender us _ _ hm
      intro t ht
      rw [h1] at ht
      obtain ⟨cid, hcid, a, ha⟩ := hi t ht
      exact ⟨cid, by rw [h2]; exact hcid, a, by rw [h3]; exact ha⟩
  | transfer_administrator sender proposed hm =>
      obtain ⟨h1, h2, h3, -, -⟩ := admin_frame _ sender proposed _ (Or.inl hm)
      intro t ht
      rw [h1] at ht
      obtain ⟨cid, hcid, a, ha⟩ := hi t ht
      exact ⟨cid, by rw [h2]; exact hcid, a, by rw [h3]; exact ha⟩
  | accept_administrator sender hm =>
      obtain ⟨h1, h2, h3, -, -⟩ := admin_frame _ sender sender _ (Or.inr hm)
      intro t ht
      rw [h1] at ht
      obtain ⟨cid, hcid, a, ha⟩ := hi t ht
      exact ⟨cid, by rw [h2]; exact hcid, a, by rw [h3]; exact ha⟩

/-- Every reachable FA2 state satisfies the well-ownership invariant. -/
theorem reachable_inv (s : FA2.State) (h : FA2.Reachable s) : FA2.Inv s := by
  induction h with
  | init a =>
      intro t ht
      simp [FA2.initial] at ht
  | step hr hs ih => exact step_inv _ _ hs ih

/-- C2: in every reachable ledger state, every minted token has exactly
one resolved owner (the per-token ledger entry when present, otherwise the
collection ledger entry of its collection), and `get_balance` answers 1
for that owner and 0 for every other address. -/
theorem c2_ownership_exclusive (s : FA2.State) (hs : FA2.Reachable s) (tid : Nat)
    (h : tid < s.counter) :
    ∃ o, FA2.resolvedOwner s tid = some o ∧
      FA2.get_balance s o tid = .ok 1 ∧
      ∀ o', o' ≠ o → FA2.get_balance s o' tid = .ok 0 := by
  obtain ⟨cid, htc, a, hcl⟩ := reachable_inv s hs tid h
  have hlt : ¬ s.counter ≤ tid := by omega
  rcases hld : s.ledger tid with _ | b
  · refine ⟨a, ?_, ?_, ?_⟩
    · simp [FA2.resolvedOwner, hld, htc, hcl]
    · simp [FA2.get_balance, hld, htc, hcl, hlt]
    · intro o' ho'
      have hne : ¬ (a = o') := fun hh => ho' hh.symm
      simp [FA2.get_balance, hld, htc, hcl, hlt, hne]
  · refine ⟨b, ?_, ?_, ?_⟩
    · simp [FA2.resolvedOwner, hld]
    · simp [FA2.get_balance, hld, hlt]
    · intro o' ho'
      have hne : ¬ (b = o') := fun hh => ho' hh.symm
      simp [FA2.get_balance, hld, hlt, hne]

/-- Witness for C2: in the reachable state holding one freshly minted
1-token collection, token 0 has exactly one resolved owner. -/
theorem c2_witness :
    ∃ o, FA2.resolvedOwner demoFa2Minted 0 = some o ∧
      FA2.get_balance demoFa2Minted o 0 = .ok 1 ∧
      ∀ o', o' ≠ o → FA2.get_balance demoFa2Minted o' 0 = .ok 0 :=
  c2_ownership_exclusive demoFa2Minted
    (FA2.Reachable.step (FA2.Reachable.init 0)
      (FA2.Step.mint 0 demoMintParams rfl)) 0 (by decide)

/-- C3: once a successful individual transfer touches a token of a
collection, that collection is not fresh in every state reachable from
then on, and every whole-collection transfer of it fails. -/
theorem c3_freshness_monotone
    (s : FA2.State) (sender : Addr) (items : List FA2.TransferItem) (s' : FA2.State)
    (htr : FA2.transfer s sender items = .ok s')
    (item : FA2.TransferItem) (tx : FA2.TxItem)
    (hitem : item ∈ items) (htx : tx ∈ item.txs)
    (cid : Nat) (hcid : s.token_collection tx.token_id = some cid)
    (s'' : FA2.State) (hreach : FA2.ReachableFrom s' s'') :
    s''.collection_not_fresh cid = true ∧
    ∀ sender2 from_ to_,
      isError (FA2.transfer_collection s'' sender2 from_ to_ cid) = true := by
  have h1 := transfer_marks sender items s s' item tx cid htr hitem htx hcid
  have h2 := reachableFrom_not_fresh s' s'' hreach cid h1
  exact ⟨h2, not_fresh_blocks s'' cid h2⟩

/-- Witness for C3: after the minter transfers token 0 of the demo minted
collection, collection 0 is not fresh and whole-collection transfer of it
fails. -/
theorem c3_witness :
    demoFa2Transferred.collection_not_fresh 0 = true ∧
    ∀ sender2 from_ to_,
      isError (FA2.transfer_collection demoFa2Transferred sender2 from_ to_ 0) = true :=
  c3_freshness_monotone demoFa2Minted 10 [⟨10, [⟨6, 0, 1⟩]⟩] demoFa2Transferred rfl
    ⟨10, [⟨6, 0, 1⟩]⟩ ⟨6, 0, 1⟩ (List.Mem.head _) (List.Mem.head _) 0 rfl
    demoFa2Transferred Relation.ReflTransGen.refl
